import Mathlib

/-!
Verification development for the SPG-L1 solver module
(`cr/sparse/_src/cvx/spgl1.py` of the cr-sparse repository).

The module is embedded shallowly: JAX arrays become `List` over an ordered
field (the generic `α` parts are instantiated at `ℚ` for concrete witness
evaluations and at `ℝ` for the solver layer, which uses the Euclidean norm
and hence `Real.sqrt`), `lax.cond` becomes `if`, `lax.while_loop` becomes a
fuel-bounded iteration (`loopIter`) whose fuel provably exceeds the bound
built into every loop condition, so the fuel never truncates the loop.
Machine floats are idealised as exact field arithmetic.
-/

namespace Spgl1

/-! ### Basic vector operations (cr.nimble external helpers)

`crn.norm_l1` / `crn.arr_l1norm`, `crn.norm_linf`, `jnp.vdot` and friends,
restricted to real (as opposed to complex) inputs, so `jnp.conj` is the
identity and `jnp.real` is the identity. -/

variable {α : Type*} [LinearOrderedField α]

/-- Sum of absolute values: `crn.norm_l1` / `crn.arr_l1norm`. -/
def l1norm (x : List α) : α := (x.map (fun t => |t|)).sum

/-- Maximum absolute value: `crn.norm_linf` (0 on the empty list). -/
def linf (x : List α) : α := (x.map (fun t => |t|)).foldr max 0

/-- Componentwise difference of two vectors. -/
def vsub (x y : List α) : List α := List.zipWith (fun a b => a - b) x y

/-- Componentwise negation, for `-A.trans(r)`. -/
def vneg (x : List α) : List α := x.map (fun t => -t)

/-- Scalar times vector. -/
def vsmul (c : α) (x : List α) : List α := x.map (fun t => c * t)

/-- Real dot product: `jnp.dot(jnp.conj(a), b)` on real vectors. -/
def dot (x y : List α) : α := (List.zipWith (fun a b => a * b) x y).sum

/-- Squared Euclidean distance between two vectors, the objective of the
projection problem (`z` Euclidean-nearest to `x`). -/
def distSq (x z : List α) : α := (List.zipWith (fun a b => (a - b) ^ 2) x z).sum

/-- The `jnp.clip(v, lo, hi)` operation: `min(hi, max(lo, v))`. -/
def clip (v lo hi : α) : α := min (max v lo) hi

theorem l1norm_nil : l1norm ([] : List α) = 0 := rfl

theorem l1norm_cons (a : α) (l : List α) : l1norm (a :: l) = |a| + l1norm l := by
  simp [l1norm]

theorem l1norm_nonneg (x : List α) : 0 ≤ l1norm x := by
  induction x with
  | nil => simp [l1norm]
  | cons a l ih => rw [l1norm_cons]; positivity

theorem distSq_cons (a c : α) (t w : List α) :
    distSq (a :: t) (c :: w) = (a - c) ^ 2 + distSq t w := by
  simp [distSq]

theorem distSq_nonneg (x z : List α) : 0 ≤ distSq x z := by
  induction x generalizing z with
  | nil => simp [distSq]
  | cons a l ih =>
    cases z with
    | nil => simp [distSq]
    | cons b m =>
      have h := ih m
      simp only [distSq, List.zipWith_cons_cons, List.sum_cons] at *
      positivity

theorem distSq_self (x : List α) : distSq x x = 0 := by
  induction x with
  | nil => rfl
  | cons a l ih =>
    simp only [distSq, List.zipWith_cons_cons, List.sum_cons, sub_self,
      ne_eq, OfNat.ofNat_ne_zero, not_false_eq_true, zero_pow, zero_add]
    exact ih

/-! ### The L1-ball projector (`_project_to_l1_ball`, `project_to_l1_ball`)

The source:
```
u = jnp.sort(jnp.abs(x))[::-1]          -- descending sort of magnitudes
cu = jnp.cumsum(u)
cu_diff = cu - q
u_scaled = u*jnp.arange(1, 1+len(u))
flags = cu_diff > u_scaled
K = jnp.argmax(flags)                   -- first True, or 0 when none
K = jnp.where(K == 0, len(flags), K)
kappa = (cu[K-1] - q)/K
return jnp.maximum(0, x - kappa) + jnp.minimum(0, x + kappa)
```
-/

/-- Descending sort of the absolute values, `jnp.sort(jnp.abs(x))[::-1]`. -/
def sortedAbs (x : List α) : List α :=
  List.insertionSort (fun a b => b ≤ a) (x.map (fun t => |t|))

/-- Cumulative sums, `jnp.cumsum`: entry `i` is the sum of entries `0..i`. -/
def cumsum (l : List α) : List α :=
  (List.range l.length).map (fun i => (l.take (i + 1)).sum)

/-- Index of the first `true` (as `jnp.argmax` on a boolean vector), `none`
when there is no `true` entry. -/
def firstTrue? : List Bool → Option ℕ
  | [] => none
  | b :: t => if b then some 0 else (firstTrue? t).map (fun i => i + 1)

/-- The `jnp.argmax` of a boolean vector: index of the first `true` entry,
and 0 when every entry is `false`. -/
def argmaxBool (l : List Bool) : ℕ := (firstTrue? l).getD 0

/-- The breakpoint flags `cu - q > u * arange(1, n+1)` of the projector. -/
def projFlags (x : List α) (q : α) : List Bool :=
  let u := sortedAbs x
  let cu := cumsum u
  (List.range u.length).map
    (fun i => decide (u.getD i 0 * ((i : α) + 1) < cu.getD i 0 - q))

/-- The breakpoint count `K` of the projector, with the explicit fallback
`K = n` when `argmax` returned index 0. -/
def projK (x : List α) (q : α) : ℕ :=
  let flags := projFlags x q
  let K := argmaxBool flags
  if K = 0 then flags.length else K

/-- The shrinkage threshold `kappa = (cu[K-1] - q)/K`. -/
def projKappa (x : List α) (q : α) : α :=
  let cu := cumsum (sortedAbs x)
  let K := projK x q
  (cu.getD (K - 1) 0 - q) / (K : α)

/-- Soft-thresholding of one coordinate by `kappa`:
`max(0, t - kappa) + min(0, t + kappa)`. -/
def soft1 (kappa t : α) : α := max 0 (t - kappa) + min 0 (t + kappa)

/-- Python `_project_to_l1_ball`: shrink all coordinates by the breakpoint
threshold. Only ever called on infeasible inputs. -/
def underscore_project_to_l1_ball (x : List α) (q : α) : List α :=
  x.map (soft1 (projKappa x q))

/-- Python `project_to_l1_ball`: the feasibility test `arr_l1norm(x) > q`
is performed first (`lax.cond`); feasible vectors are returned unchanged. -/
def project_to_l1_ball (x : List α) (q : α) : List α :=
  if q < l1norm x then underscore_project_to_l1_ball x q else x

theorem project_eq_of_feasible {x : List α} {q : α} (h : l1norm x ≤ q) :
    project_to_l1_ball x q = x := by
  simp [project_to_l1_ball, not_lt.mpr h]

theorem length_project (x : List α) (q : α) :
    (project_to_l1_ball x q).length = x.length := by
  unfold project_to_l1_ball underscore_project_to_l1_ball
  split <;> simp

/-! ### Correctness of the projector -/

theorem sortedAbs_perm (x : List α) :
    List.Perm (sortedAbs x) (x.map (fun t => |t|)) :=
  List.perm_insertionSort _ _

theorem sortedAbs_sorted (x : List α) :
    List.Sorted (fun a b : α => b ≤ a) (sortedAbs x) := by
  have h := List.sorted_insertionSort (α := α) (· ≥ ·) (x.map (fun t => |t|))
  exact h

theorem sortedAbs_length (x : List α) : (sortedAbs x).length = x.length := by
  rw [(sortedAbs_perm x).length_eq, List.length_map]

theorem sortedAbs_sum (x : List α) : (sortedAbs x).sum = l1norm x :=
  (sortedAbs_perm x).sum_eq

theorem sortedAbs_nonneg (x : List α) : ∀ a ∈ sortedAbs x, 0 ≤ a := by
  intro a ha
  rw [(sortedAbs_perm x).mem_iff, List.mem_map] at ha
  obtain ⟨t, _, rfl⟩ := ha
  exact abs_nonneg t

theorem sortedAbs_getD_nonneg (x : List α) (i : ℕ) :
    0 ≤ (sortedAbs x).getD i 0 := by
  by_cases h : i < (sortedAbs x).length
  · rw [List.getD_eq_getElem _ _ h]
    exact sortedAbs_nonneg x _ (List.getElem_mem h)
  · rw [List.getD_eq_default _ _ (not_lt.mp h)]

theorem sortedAbs_getD_antitone (x : List α) {i j : ℕ} (hij : i ≤ j)
    (hj : j < (sortedAbs x).length) :
    (sortedAbs x).getD j 0 ≤ (sortedAbs x).getD i 0 := by
  have hi : i < (sortedAbs x).length := lt_of_le_of_lt hij hj
  rw [List.getD_eq_getElem _ _ hi, List.getD_eq_getElem _ _ hj]
  rcases eq_or_lt_of_le hij with rfl | hlt
  · exact le_refl _
  · exact (sortedAbs_sorted x).rel_get_of_lt (a := ⟨i, hi⟩) (b := ⟨j, hj⟩) hlt

theorem cumsum_length (l : List α) : (cumsum l).length = l.length := by
  simp [cumsum]

theorem cumsum_getD (l : List α) {i : ℕ} (h : i < l.length) :
    (cumsum l).getD i 0 = (l.take (i + 1)).sum := by
  rw [List.getD_eq_getElem _ _ (by simpa [cumsum_length] using h)]
  simp [cumsum]

/-- The breakpoint predicate of index `i` of the flag vector, as a `Prop`. -/
def Fprop (x : List α) (q : α) (i : ℕ) : Prop :=
  (sortedAbs x).getD i 0 * ((i : α) + 1) < (cumsum (sortedAbs x)).getD i 0 - q

instance (x : List α) (q : α) (i : ℕ) : Decidable (Fprop x q i) := by
  unfold Fprop; infer_instance

theorem projFlags_eq (x : List α) (q : α) :
    projFlags x q =
      (List.range (sortedAbs x).length).map (fun i => decide (Fprop x q i)) := rfl

theorem projFlags_length (x : List α) (q : α) :
    (projFlags x q).length = (sortedAbs x).length := by
  rw [projFlags_eq]; simp

theorem projFlags_getD (x : List α) (q : α) {i : ℕ}
    (h : i < (sortedAbs x).length) :
    (projFlags x q).getD i false = decide (Fprop x q i) := by
  rw [projFlags_eq, List.getD_eq_getElem _ _ (by simpa using h)]
  simp

theorem firstTrue_eq_none_iff (l : List Bool) :
    firstTrue? l = none ↔ ∀ b ∈ l, b = false := by
  induction l with
  | nil => simp [firstTrue?]
  | cons b t ih =>
    by_cases hb : b
    · subst hb; simp [firstTrue?]
    · simp only [Bool.not_eq_true] at hb
      subst hb
      simp [firstTrue?, ih]

theorem firstTrue_eq_some (l : List Bool) (k : ℕ) (h : firstTrue? l = some k) :
    k < l.length ∧ l.getD k false = true ∧ ∀ j, j < k → l.getD j false = false := by
  induction l generalizing k with
  | nil => simp [firstTrue?] at h
  | cons b t ih =>
    by_cases hb : b
    · subst hb
      simp only [firstTrue?, if_true, Option.some.injEq] at h
      subst h
      refine ⟨by simp, by simp, by omega⟩
    · simp only [Bool.not_eq_true] at hb
      subst hb
      simp only [firstTrue?, if_false, Bool.false_eq_true, Option.map_eq_some'] at h
      obtain ⟨i, hi, rfl⟩ := h
      obtain ⟨h1, h2, h3⟩ := ih i hi
      refine ⟨by simpa using h1, by simpa using h2, ?_⟩
      intro j hj
      cases j with
      | zero => rfl
      | succ j => simpa using h3 j (by omega)

theorem take_one_sum (l : List α) (h : 0 < l.length) :
    (l.take 1).sum = l.getD 0 0 := by
  cases l with
  | nil => simp at h
  | cons a t => simp

theorem Fprop_zero_false {x : List α} {q : α} (hq : 0 ≤ q) : ¬ Fprop x q 0 := by
  unfold Fprop
  by_cases hn : 0 < (sortedAbs x).length
  · rw [cumsum_getD _ hn, zero_add, take_one_sum _ hn]
    intro h
    nlinarith [sortedAbs_getD_nonneg x 0]
  · push_neg at hn
    interval_cases h : (sortedAbs x).length
    · rw [List.getD_eq_default _ _ (by omega), List.getD_eq_default _ _ (by simp [cumsum_length, h])]
      intro hc
      nlinarith

theorem Fprop_mono {x : List α} {q : α} {i : ℕ}
    (hsucc : i + 1 < (sortedAbs x).length) :
    Fprop x q i → Fprop x q (i + 1) := by
  intro hF
  unfold Fprop at hF ⊢
  have hi : i < (sortedAbs x).length := by omega
  have hsort : (sortedAbs x).getD (i + 1) 0 ≤ (sortedAbs x).getD i 0 :=
    sortedAbs_getD_antitone x (by omega) hsucc
  have hnn : 0 ≤ (sortedAbs x).getD (i + 1) 0 := sortedAbs_getD_nonneg x (i + 1)
  rw [cumsum_getD _ hi] at hF
  rw [cumsum_getD _ hsucc, List.sum_take_succ _ _ hsucc]
  have hget : (sortedAbs x)[i + 1] = (sortedAbs x).getD (i + 1) 0 :=
    (List.getD_eq_getElem _ _ hsucc).symm
  rw [hget]
  have hcast : (0 : α) ≤ (i : α) + 1 := by positivity
  have hmul : (sortedAbs x).getD (i + 1) 0 * ((i : α) + 1) ≤
      (sortedAbs x).getD i 0 * ((i : α) + 1) := by
    exact mul_le_mul_of_nonneg_right hsort hcast
  push_cast
  nlinarith

/-- Combined characterisation of `projK` on an infeasible input: it lies in
`[1, n]`, every flag strictly below it is false, and (when it is interior)
its own flag is true. -/
theorem projK_facts {x : List α} {q : α} (hq : 0 ≤ q) (hx : q < l1norm x) :
    1 ≤ projK x q ∧ projK x q ≤ (sortedAbs x).length ∧
    (∀ j, j < projK x q → ¬ Fprop x q j) ∧
    (projK x q < (sortedAbs x).length → Fprop x q (projK x q)) := by
  have hn : 0 < (sortedAbs x).length := by
    rw [sortedAbs_length]
    rcases x with _ | ⟨a, t⟩
    · simp [l1norm] at hx; exact absurd hx (by simpa using hq.not_lt)
    · simp
  simp only [projK, argmaxBool]
  rcases hft : firstTrue? (projFlags x q) with _ | k
  · -- no flag is true: K falls back to the full length
    rw [firstTrue_eq_none_iff] at hft
    simp only [Option.getD_none, if_true, projFlags_length]
    refine ⟨hn, le_refl _, ?_, by omega⟩
    intro j hj hF
    have hmem : decide (Fprop x q j) ∈ projFlags x q := by
      rw [projFlags_eq]
      exact List.mem_map_of_mem _ (List.mem_range.mpr hj)
    have := hft _ hmem
    simp [hF] at this
  · obtain ⟨hklen, hktrue, hkfalse⟩ := firstTrue_eq_some _ _ hft
    rw [projFlags_length] at hklen
    have hk0 : k ≠ 0 := by
      intro h0
      subst h0
      rw [projFlags_getD _ _ hn] at hktrue
      exact Fprop_zero_false hq (of_decide_eq_true hktrue)
    simp only [Option.getD_some, if_neg hk0]
    refine ⟨by omega, by omega, ?_, ?_⟩
    · intro j hj hF
      have hjlen : j < (sortedAbs x).length := by omega
      have := hkfalse j hj
      rw [projFlags_getD _ _ hjlen] at this
      simp [hF] at this
    · intro _
      rw [projFlags_getD _ _ hklen] at hktrue
      exact of_decide_eq_true hktrue

theorem projKappa_eq {x : List α} {q : α} (hq : 0 ≤ q) (hx : q < l1norm x) :
    projKappa x q = (((sortedAbs x).take (projK x q)).sum - q) / (projK x q : α) := by
  obtain ⟨hK1, hKn, _, _⟩ := projK_facts hq hx
  have hKlt : projK x q - 1 < (sortedAbs x).length := by omega
  have harg : (projK x q - 1) + 1 = projK x q := by omega
  simp only [projKappa]
  rw [cumsum_getD _ hKlt, harg]

/-- The algorithmic threshold is strictly positive, is at most the `K`-th
largest magnitude, and strictly exceeds the `(K+1)`-th largest magnitude. -/
theorem projKappa_facts {x : List α} {q : α} (hq : 0 ≤ q) (hx : q < l1norm x) :
    0 < projKappa x q ∧
    projKappa x q ≤ (sortedAbs x).getD (projK x q - 1) 0 ∧
    (projK x q < (sortedAbs x).length →
      (sortedAbs x).getD (projK x q) 0 < projKappa x q) := by
  obtain ⟨hK1, hKn, hnotF, hFK⟩ := projK_facts hq hx
  have hKpos : (0 : α) < (projK x q : α) := by
    exact_mod_cast Nat.pos_of_ne_zero (by omega)
  have hKlt : projK x q - 1 < (sortedAbs x).length := by omega
  have hcast : ((projK x q - 1 : ℕ) : α) + 1 = (projK x q : α) := by
    have : ((projK x q - 1 : ℕ) : α) = (projK x q : α) - 1 := by
      push_cast [Nat.cast_sub hK1]
      ring
    rw [this]; ring
  -- the flag strictly below K is false
  have hbelow := hnotF (projK x q - 1) (by omega)
  unfold Fprop at hbelow
  rw [cumsum_getD _ hKlt, hcast] at hbelow
  push_neg at hbelow
  have harg : (projK x q - 1) + 1 = projK x q := by omega
  rw [harg] at hbelow
  rw [projKappa_eq hq hx]
  have hub : (((sortedAbs x).take (projK x q)).sum - q) / (projK x q : α) ≤
      (sortedAbs x).getD (projK x q - 1) 0 := by
    rw [div_le_iff₀ hKpos]
    linarith
  -- strict bound on the next magnitude, when K is interior
  have htail : projK x q < (sortedAbs x).length →
      (sortedAbs x).getD (projK x q) 0 <
        (((sortedAbs x).take (projK x q)).sum - q) / (projK x q : α) := by
    intro hlt
    have hF := hFK hlt
    unfold Fprop at hF
    rw [cumsum_getD _ hlt, List.sum_take_succ _ _ hlt] at hF
    rw [List.getD_eq_getElem _ _ hlt] at hF ⊢
    rw [lt_div_iff₀ hKpos]
    nlinarith
  refine ⟨?_, hub, htail⟩
  -- positivity of the threshold
  rcases eq_or_lt_of_le hKn with heq | hlt
  · have hfull : (sortedAbs x).take (projK x q) = sortedAbs x := by
      rw [heq]; exact List.take_length _
    rw [hfull, sortedAbs_sum]
    exact div_pos (by linarith) hKpos
  · have := htail hlt
    have hnn : 0 ≤ (sortedAbs x).getD (projK x q) 0 := sortedAbs_getD_nonneg x _
    linarith

theorem sum_map_shrink_of_le (l : List α) (c : α) (h : ∀ a ∈ l, c ≤ a) :
    (l.map (fun a => max 0 (a - c))).sum = l.sum - (l.length : α) * c := by
  induction l with
  | nil => simp
  | cons a t ih =>
    have ha : c ≤ a := h a (by simp)
    have hrest := ih (fun b hb => h b (by simp [hb]))
    simp only [List.map_cons, List.sum_cons, List.length_cons]
    rw [hrest, max_eq_right (by linarith)]
    push_cast
    ring

theorem sum_map_shrink_of_ge (l : List α) (c : α) (h : ∀ a ∈ l, a ≤ c) :
    (l.map (fun a => max 0 (a - c))).sum = 0 := by
  induction l with
  | nil => simp
  | cons a t ih =>
    have ha : a ≤ c := h a (by simp)
    have hrest := ih (fun b hb => h b (by simp [hb]))
    simp only [List.map_cons, List.sum_cons]
    rw [hrest, max_eq_left (by linarith), add_zero]

/-- Tightness: shrinking the sorted magnitudes by the algorithmic threshold
yields total mass exactly `q`. -/
theorem shrink_sum_eq {x : List α} {q : α} (hq : 0 ≤ q) (hx : q < l1norm x) :
    ((sortedAbs x).map (fun a => max 0 (a - projKappa x q))).sum = q := by
  obtain ⟨hK1, hKn, _, _⟩ := projK_facts hq hx
  obtain ⟨hκpos, hκub, hκtail⟩ := projKappa_facts hq hx
  have hKpos : (0 : α) < (projK x q : α) := by
    exact_mod_cast Nat.pos_of_ne_zero (by omega)
  have hsplit := List.take_append_drop (projK x q) (sortedAbs x)
  have htklen : ((sortedAbs x).take (projK x q)).length = projK x q := by
    simp [List.length_take, Nat.min_eq_left hKn]
  -- every retained magnitude is at least the threshold
  have htake : ∀ a ∈ (sortedAbs x).take (projK x q), projKappa x q ≤ a := by
    intro a ha
    obtain ⟨i, hi, rfl⟩ := List.mem_iff_getElem.mp ha
    rw [htklen] at hi
    have hilen : i < (sortedAbs x).length := by omega
    have hmono : (sortedAbs x).getD (projK x q - 1) 0 ≤ (sortedAbs x).getD i 0 :=
      sortedAbs_getD_antitone x (show i ≤ projK x q - 1 by omega) (by omega)
    rw [List.getElem_take, ← List.getD_eq_getElem _ 0 hilen]
    exact le_trans hκub hmono
  -- every discarded magnitude is below the threshold
  have hdrop : ∀ a ∈ (sortedAbs x).drop (projK x q), a ≤ projKappa x q := by
    intro a ha
    obtain ⟨i, hi, rfl⟩ := List.mem_iff_getElem.mp ha
    have hlen : projK x q + i < (sortedAbs x).length := by
      have := hi; rw [List.length_drop] at this; omega
    have hKlt : projK x q < (sortedAbs x).length := by omega
    rw [List.getElem_drop]
    refine le_trans ?_ (le_of_lt (hκtail hKlt))
    rw [List.getD_eq_getElem _ _ hKlt]
    have := sortedAbs_getD_antitone x (show projK x q ≤ projK x q + i by omega) hlen
    rw [List.getD_eq_getElem _ _ hlen, List.getD_eq_getElem _ _ hKlt] at this
    exact this
  calc ((sortedAbs x).map (fun a => max 0 (a - projKappa x q))).sum
      = (((sortedAbs x).take (projK x q) ++ (sortedAbs x).drop (projK x q)).map
          (fun a => max 0 (a - projKappa x q))).sum := by rw [hsplit]
    _ = q := by
        rw [List.map_append, List.sum_append,
          sum_map_shrink_of_le _ _ htake, sum_map_shrink_of_ge _ _ hdrop,
          htklen, add_zero]
        have hmul : (((sortedAbs x).take (projK x q)).sum - q) =
            projKappa x q * (projK x q : α) := by
          rw [projKappa_eq hq hx, div_mul_cancel₀ _ (ne_of_gt hKpos)]
        linarith

/-- The magnitude of a soft-thresholded coordinate. -/
theorem abs_soft1 {kappa : α} (hk : 0 ≤ kappa) (t : α) :
    |soft1 kappa t| = max 0 (|t| - kappa) := by
  unfold soft1
  rcases le_total 0 t with ht | ht
  · rw [min_eq_left (by linarith), add_zero, abs_of_nonneg (le_max_left 0 _),
      abs_of_nonneg ht]
  · rw [max_eq_left (by linarith), zero_add, abs_of_nonpos (min_le_left 0 _),
      abs_of_nonpos ht]
    rcases le_total (t + kappa) 0 with h2 | h2
    · rw [min_eq_right h2, max_eq_right (by linarith)]
      ring
    · rw [min_eq_left h2, max_eq_left (by linarith), neg_zero]

/-- On infeasible inputs the shrunken vector has l1 norm exactly `q`. -/
theorem l1norm_underscore_project {x : List α} {q : α} (hq : 0 ≤ q)
    (hx : q < l1norm x) :
    l1norm (underscore_project_to_l1_ball x q) = q := by
  obtain ⟨hκpos, _, _⟩ := projKappa_facts hq hx
  unfold l1norm underscore_project_to_l1_ball
  rw [List.map_map]
  have hcongr : ∀ t ∈ x, ((fun t => |t|) ∘ soft1 (projKappa x q)) t =
      ((fun a => max 0 (a - projKappa x q)) ∘ (fun t => |t|)) t := by
    intro t _
    simp only [Function.comp_apply]
    exact abs_soft1 (le_of_lt hκpos) t
  rw [List.map_congr_left hcongr, ← List.map_map]
  rw [((sortedAbs_perm x).map (fun a => max 0 (a - projKappa x q))).sum_eq.symm]
  exact shrink_sum_eq hq hx

/-- Feasibility of the projector output (`q ≥ 0`). -/
theorem l1norm_project_le {q : α} (hq : 0 ≤ q) (x : List α) :
    l1norm (project_to_l1_ball x q) ≤ q := by
  unfold project_to_l1_ball
  split
  · exact le_of_eq (l1norm_underscore_project hq (by assumption))
  · exact not_lt.mp (by assumption)

/-- Pointwise variational inequality for soft thresholding. -/
theorem soft1_sq_bound {kappa : α} (hk : 0 ≤ kappa) (a c : α) :
    (a - soft1 kappa a) ^ 2 + 2 * kappa * (|soft1 kappa a| - |c|) ≤ (a - c) ^ 2 := by
  have hc1 : c ≤ |c| := le_abs_self c
  have hcsq : c ^ 2 = |c| ^ 2 := (sq_abs c).symm
  unfold soft1
  rcases le_total kappa a with h1 | h1
  · -- the coordinate stays positive and is shrunk by kappa
    rw [min_eq_left (by linarith), add_zero, max_eq_right (by linarith),
      abs_of_nonneg (by linarith : (0:α) ≤ a - kappa)]
    have ha0 : 0 ≤ a := le_trans hk h1
    have hac : a * c ≤ a * |c| := mul_le_mul_of_nonneg_left hc1 ha0
    nlinarith [sq_nonneg (a - |c| - kappa)]
  · rcases le_total a (-kappa) with h2 | h2
    · -- the coordinate stays negative and is shrunk by kappa
      rw [max_eq_left (by linarith), zero_add, min_eq_right (by linarith),
        abs_of_nonpos (by linarith : a + kappa ≤ 0)]
      have ha0 : a ≤ 0 := by linarith
      have hac : a * (|c| + c) ≤ 0 :=
        mul_nonpos_of_nonpos_of_nonneg ha0 (by linarith [neg_le_abs c])
      nlinarith [sq_nonneg (a + |c| + kappa)]
    · -- the coordinate is zeroed
      rw [max_eq_left (by linarith), min_eq_left (by linarith), add_zero,
        abs_zero]
      have ha : |a| ≤ kappa := abs_le.mpr ⟨by linarith, by linarith⟩
      have hac : a * c ≤ |a| * |c| := by
        calc a * c ≤ |a * c| := le_abs_self _
          _ = |a| * |c| := abs_mul a c
      have hub : |a| * |c| ≤ kappa * |c| :=
        mul_le_mul_of_nonneg_right ha (abs_nonneg c)
      nlinarith [sq_nonneg c]

/-- Summed variational inequality: soft thresholding beats any competitor up
to the l1-mass correction term. -/
theorem soft_dist_bound (kappa : α) (hk : 0 ≤ kappa) :
    ∀ (x z : List α), z.length = x.length →
      distSq x (x.map (soft1 kappa)) +
        2 * kappa * (l1norm (x.map (soft1 kappa)) - l1norm z) ≤ distSq x z := by
  intro x
  induction x with
  | nil =>
    intro z hz
    rw [List.length_nil, List.length_eq_zero] at hz
    subst hz
    simp [distSq, l1norm]
  | cons a t ih =>
    intro z hz
    cases z with
    | nil => simp at hz
    | cons c w =>
      simp only [List.length_cons, Nat.succ.injEq] at hz
      have hpt := soft1_sq_bound hk a c
      have hrec := ih w hz
      rw [List.map_cons, distSq_cons, distSq_cons, l1norm_cons, l1norm_cons]
      linarith

/-- The projector output is Euclidean-nearest among feasible competitors of
matching dimension. -/
theorem project_nearest {q : α} (hq : 0 ≤ q) (x z : List α)
    (hlen : z.length = x.length) (hz : l1norm z ≤ q) :
    distSq x (project_to_l1_ball x q) ≤ distSq x z := by
  unfold project_to_l1_ball
  split
  · have hx : q < l1norm x := by assumption
    obtain ⟨hκpos, _, _⟩ := projKappa_facts hq hx
    have hmass : l1norm (underscore_project_to_l1_ball x q) = q :=
      l1norm_underscore_project hq hx
    have hb := soft_dist_bound (projKappa x q) (le_of_lt hκpos) x z hlen
    unfold underscore_project_to_l1_ball at hmass ⊢
    nlinarith [hb, hκpos, hmass, hz]
  · rw [distSq_self]
    exact distSq_nonneg x z

/-- When the flag scan selects index 0 on an infeasible input, `K` falls back
to the full length and the threshold becomes `(l1norm x - q)/n`. -/
theorem projK_fallback {x : List α} {q : α} (hq : 0 ≤ q) (hx : q < l1norm x)
    (h0 : argmaxBool (projFlags x q) = 0) :
    projK x q = x.length ∧ projKappa x q = (l1norm x - q) / (x.length : α) := by
  have hK : projK x q = x.length := by
    simp only [projK]
    rw [h0, if_pos rfl, projFlags_length, sortedAbs_length]
  refine ⟨hK, ?_⟩
  rw [projKappa_eq hq hx, hK, ← sortedAbs_length, List.take_length, sortedAbs_sum]

/-! ### A bounded while-loop combinator

`lax.while_loop(cond, body, s)` is embedded as `loopIter cond body fuel s`.
Every loop in the module carries an iteration counter inside its condition
(`n_iters < 10`, `iterations < max_iters`), so a fuel equal to that cap
strictly dominates the number of possible iterations; `loopIter_exit` below
shows the fuel never truncates the loop, i.e. the final state genuinely
fails the loop condition, exactly as for the unbounded while loop. -/

def loopIter {σ : Type*} (cond : σ → Prop) [DecidablePred cond]
    (body : σ → σ) : ℕ → σ → σ
  | 0, s => s
  | fuel + 1, s => if cond s then loopIter cond body fuel (body s) else s

theorem loopIter_invariant {σ : Type*} (cond : σ → Prop) [DecidablePred cond]
    (body : σ → σ) (P : σ → Prop) (hbody : ∀ t, P t → P (body t)) :
    ∀ (fuel : ℕ) (s : σ), P s → P (loopIter cond body fuel s) := by
  intro fuel
  induction fuel with
  | zero => intro s hs; exact hs
  | succ n ih =>
    intro s hs
    rw [loopIter]
    split
    · exact ih (body s) (hbody s hs)
    · exact hs

theorem loopIter_eq_or {σ : Type*} (cond : σ → Prop) [DecidablePred cond]
    (body : σ → σ) :
    ∀ (fuel : ℕ) (s : σ), loopIter cond body fuel s = s ∨
      ∃ t, loopIter cond body fuel s = body t := by
  intro fuel
  induction fuel with
  | zero => intro s; exact Or.inl rfl
  | succ n ih =>
    intro s
    rw [loopIter]
    split
    · rcases ih (body s) with h | ⟨t, ht⟩
      · exact Or.inr ⟨s, h⟩
      · exact Or.inr ⟨t, ht⟩
    · exact Or.inl rfl

theorem loopIter_iterate {σ : Type*} (cond : σ → Prop) [DecidablePred cond]
    (body : σ → σ) :
    ∀ (fuel : ℕ) (s : σ), ∃ k, k ≤ fuel ∧
      loopIter cond body fuel s = body^[k] s ∧
      (∀ j, j < k → cond (body^[j] s)) := by
  intro fuel
  induction fuel with
  | zero => intro s; exact ⟨0, le_refl 0, rfl, by omega⟩
  | succ n ih =>
    intro s
    rw [loopIter]
    split
    · obtain ⟨k, hk, heq, hcond⟩ := ih (body s)
      refine ⟨k + 1, by omega, ?_, ?_⟩
      · rw [Function.iterate_succ_apply]; exact heq
      · intro j hj
        cases j with
        | zero => simpa using (by assumption : cond s)
        | succ j =>
          rw [Function.iterate_succ_apply]
          exact hcond j (by omega)
    · exact ⟨0, by omega, rfl, by omega⟩

theorem loopIter_exit {σ : Type*} (cond : σ → Prop) [DecidablePred cond]
    (body : σ → σ) (f : σ → ℕ) (hdec : ∀ t, cond t → f (body t) < f t) :
    ∀ (fuel : ℕ) (s : σ), f s ≤ fuel → ¬ cond (loopIter cond body fuel s) := by
  intro fuel
  induction fuel with
  | zero =>
    intro s hs hcond
    rw [loopIter] at hcond
    have := hdec _ hcond
    omega
  | succ n ih =>
    intro s hs
    rw [loopIter]
    split
    · exact ih (body s) (by have := hdec s (by assumption); omega)
    · assumption

/-! ### The real-valued layer: norms and the linear-operator contract -/

/-- Euclidean norm, `jnp.linalg.norm` on a real vector. -/
noncomputable def l2norm (v : List ℝ) : ℝ :=
  Real.sqrt ((v.map (fun t => t * t)).sum)

/-- Objective value `0.5 * jnp.vdot(r, r)` of the residual. -/
noncomputable def obj_val (r : List ℝ) : ℝ := (1 / 2) * dot r r

/-- The matrix-free linear operator contract: `shape`, `times` (apply) and
`trans` (apply adjoint). -/
structure LinOp where
  m : ℕ
  n : ℕ
  times : List ℝ → List ℝ
  trans : List ℝ → List ℝ

/-! ### Curvilinear line search (`curvy_line_search`) -/

/-- State of the curvilinear line search (`CurvyLineSearchState`). -/
structure CurvyLineSearchState where
  alpha : ℝ
  scale : ℝ
  x_new : List ℝ
  r_new : List ℝ
  d_new : List ℝ
  gtd : ℝ
  d_norm_old : ℝ
  f_val : ℝ
  f_lim : ℝ
  n_iters : ℕ
  n_safe : ℕ

/-- The tuple produced by the inner `candidate(alpha, scale)` helper. -/
structure LSCandidate where
  x_new : List ℝ
  r_new : List ℝ
  d_new : List ℝ
  gtd : ℝ
  f_val : ℝ
  f_lim : ℝ

/-- `candidate(alpha, scale)`: project the scaled gradient step, recompute
residual, direction, directional derivative, objective and its bound. -/
noncomputable def ls_candidate (A : LinOp) (b x g : List ℝ)
    (proj : List ℝ → ℝ → List ℝ) (tau gamma f_max alpha scale : ℝ) :
    LSCandidate :=
  let x_new := proj (vsub x (vsmul (alpha * scale) g)) tau
  let r_new := vsub b (A.times x_new)
  let d_new := vsub x_new x
  let gtd := scale * dot g d_new
  let f_val := obj_val r_new
  let f_lim := f_max + gamma * alpha * gtd
  ⟨x_new, r_new, d_new, gtd, f_val, f_lim⟩

/-- The `init()` state of the line search: full step, unit scale, and the
reference value `f_max` stored as the initial `f_lim`. -/
noncomputable def ls_init (A : LinOp) (b x g : List ℝ)
    (proj : List ℝ → ℝ → List ℝ) (tau gamma f_max alpha0 : ℝ) :
    CurvyLineSearchState :=
  let c := ls_candidate A b x g proj tau gamma f_max alpha0 1
  ⟨alpha0, 1, c.x_new, c.r_new, c.d_new, c.gtd, 0, c.f_val, f_max, 1, 0⟩

/-- The `next_func` step: halve `alpha`, rescale on stagnation
(`|d_norm - d_norm_old| <= 1e-6 d_norm`), recompute the candidate. -/
noncomputable def ls_next (A : LinOp) (b x g : List ℝ)
    (proj : List ℝ → ℝ → List ℝ) (tau gamma f_max : ℝ)
    (s : CurvyLineSearchState) : CurvyLineSearchState :=
  let alpha := s.alpha / 2
  let d_norm := l2norm s.d_new
  let g_norm := l2norm g / Real.sqrt (A.n)
  let too_close := |d_norm - s.d_norm_old| ≤ (1 / 1000000) * d_norm
  let scale := if too_close then d_norm / g_norm / 2 ^ s.n_safe else s.scale
  let n_safe := if too_close then s.n_safe + 1 else s.n_safe
  let c := ls_candidate A b x g proj tau gamma f_max alpha scale
  ⟨alpha, scale, c.x_new, c.r_new, c.d_new, c.gtd, d_norm, c.f_val, c.f_lim,
    s.n_iters + 1, n_safe⟩

/-- The `cond_func` of the line search: continue while the iteration cap is
not reached, the direction descends, and the objective fails the bound. -/
def ls_cond (s : CurvyLineSearchState) : Prop :=
  s.n_iters < 10 ∧ s.gtd < 0 ∧ s.f_lim ≤ s.f_val

noncomputable instance : DecidablePred ls_cond := fun s => by
  unfold ls_cond; infer_instance

/-- Python `curvy_line_search`: `init()` followed by the while loop with the
fixed iteration cap `max_iters = 10` baked into the condition (the fuel `10`
strictly dominates the at most `9` possible steps from `n_iters = 1`). -/
noncomputable def curvy_line_search (A : LinOp) (b x g : List ℝ)
    (alpha0 f_max : ℝ) (proj : List ℝ → ℝ → List ℝ) (tau gamma : ℝ) :
    CurvyLineSearchState :=
  loopIter ls_cond (ls_next A b x g proj tau gamma f_max) 10
    (ls_init A b x g proj tau gamma f_max alpha0)

/-! ### Solver options and shared helpers -/

/-- `SPGL1Options`. The unused `ls_tol` is kept for fidelity. `max_matvec`
defaults to `jnp.inf`, embedded as the top element of `WithTop ℕ`. -/
structure SPGL1Options where
  bp_tol : ℝ
  ls_tol : ℝ
  opt_tol : ℝ
  dec_tol : ℝ
  gamma : ℝ
  alpha_min : ℝ
  alpha_max : ℝ
  memory : ℕ
  max_matvec : WithTop ℕ
  max_iters : ℕ

/-- The default option values of the `SPGL1Options` named tuple. -/
noncomputable def spgl1_default_options : SPGL1Options :=
  ⟨1 / 1000000, 1 / 1000000, 1 / 10000, 1 / 10000, 1 / 10000,
    1 / 10 ^ 16, 10 ^ 5, 10, ⊤, 100⟩

/-- `crn.cbuf_push_left`: push a value at the front of the circular buffer,
evicting the oldest (last) entry. -/
def cbuf_push_left (buf : List ℝ) (v : ℝ) : List ℝ := v :: buf.dropLast

/-- `jnp.max` of a vector (0 on the empty vector, which no caller produces
since `memory` is positive in all uses). -/
def arr_max : List ℝ → ℝ
  | [] => 0
  | a :: t => t.foldl max a

/-! ### LASSO solver (`solve_lasso_from`)

In the Python source `lasso_metrics(x, g, r, f)` reads `b` and `tau` as free
names. The function is defined at module level and the module defines no
global `b` or `tau`, so every call raises `NameError` (claim C1 records
this defect; the sibling `bpic_metrics` correctly receives `b`, `sigma` and
`tau` as parameters). The embedding below makes the two free names explicit
parameters bound, at the call sites inside the solver, to the solver's own
`b` and `tau` — the only reading under which the solver body is executable
and evidently the author's intent. `lasso_metrics_src` further down models
the actual module-scope name lookup and its failure. -/

/-- Body of `lasso_metrics` with the free names `b`, `tau` made explicit:
residual norm, and relative duality gap `|⟨r, r-b⟩ + tau*‖g‖_inf| / max(1,f)`.
The `x` argument is unused, as in the source. -/
noncomputable def lasso_metrics (b : List ℝ) (tau : ℝ)
    (x g r : List ℝ) (f : ℝ) : ℝ × ℝ :=
  let g_dnorm := linf g
  let r_norm := l2norm r
  let gap := dot r (vsub r b) + tau * g_dnorm
  let f_m := max 1 f
  (r_norm, |gap| / f_m)

/-- The module-level environment visible to `lasso_metrics`: whether global
names `b` and `tau` are bound. -/
structure SpglModuleEnv where
  b : Option (List ℝ)
  tau : Option ℝ

/-- The actual module globals of `spgl1.py`: no module-level `b` or `tau`
is ever defined. -/
def spgl1_module_globals : SpglModuleEnv := ⟨none, none⟩

/-- `lasso_metrics` as written in the source: its `b` and `tau` are free
names resolved in the module environment; an unbound name is a `NameError`,
modelled as `none`. -/
noncomputable def lasso_metrics_src (env : SpglModuleEnv)
    (x g r : List ℝ) (f : ℝ) : Option (ℝ × ℝ) :=
  match env.b, env.tau with
  | some bv, some tv => some (lasso_metrics bv tv x g r f)
  | _, _ => none

/-- `SPGL1LassoState`. -/
structure SPGL1LassoState where
  x : List ℝ
  g : List ℝ
  r : List ℝ
  f_past : List ℝ
  r_norm : ℝ
  r_gap : ℝ
  alpha : ℝ
  alpha_next : ℝ
  iterations : ℕ
  n_times : ℕ
  n_trans : ℕ
  n_newton : ℕ
  n_ls_iters : ℕ

/-- The `init()` of `solve_lasso_from`: project `x0`, compute residual,
gradient, objective, seed the memory buffer, estimate the first spectral
step from the projected gradient direction. -/
noncomputable def lasso_init (A : LinOp) (b : List ℝ) (tau : ℝ)
    (x0 : List ℝ) (opts : SPGL1Options) : SPGL1LassoState :=
  let x := project_to_l1_ball x0 tau
  let r := vsub b (A.times x)
  let g := vneg (A.trans r)
  let f := obj_val r
  let f_past := List.replicate opts.memory f
  let d := vsub (project_to_l1_ball (vsub x g) tau) x
  let d_norm := linf d
  let alpha := clip (1 / d_norm) opts.alpha_min opts.alpha_max
  let met := lasso_metrics b tau x g r f
  ⟨x, g, r, f_past, met.1, met.2, alpha, alpha, 1, 2, 2, 0, 0⟩

/-- The line search performed by one LASSO iteration. -/
noncomputable def lassoLS (A : LinOp) (b : List ℝ) (tau : ℝ)
    (opts : SPGL1Options) (s : SPGL1LassoState) : CurvyLineSearchState :=
  curvy_line_search A b s.x s.g s.alpha_next (arr_max s.f_past)
    project_to_l1_ball tau opts.gamma

/-- The Barzilai-Borwein update for the next spectral step:
`alpha_max` on non-positive curvature, else `clip(sts/sty, ..)`. -/
noncomputable def bb_alpha_next (alpha_min alpha_max sts sty : ℝ) : ℝ :=
  if sty ≤ 0 then alpha_max else clip (sts / sty) alpha_min alpha_max

/-- The `body_func` of `solve_lasso_from`. -/
noncomputable def lasso_body (A : LinOp) (b : List ℝ) (tau : ℝ)
    (opts : SPGL1Options) (s : SPGL1LassoState) : SPGL1LassoState :=
  let ls := lassoLS A b tau opts s
  let x := ls.x_new
  let r := ls.r_new
  let g := vneg (A.trans r)
  let f := ls.f_val
  let f_past := cbuf_push_left s.f_past f
  let met := lasso_metrics b tau x g r f
  let sv := vsub x s.x
  let y := vsub g s.g
  let alpha_next := bb_alpha_next opts.alpha_min opts.alpha_max
    (dot sv sv) (dot sv y)
  ⟨x, g, r, f_past, met.1, met.2, ls.alpha, alpha_next,
    s.iterations + 1, 2, 2, s.n_newton, ls.n_iters⟩

/-- The `cond_func` of `solve_lasso_from`: continue while under the
iteration cap, the relative gap is above tolerance, and the residual norm
is above `opt_tol * ‖b‖`. -/
def lasso_cond (b : List ℝ) (opts : SPGL1Options) (s : SPGL1LassoState) :
    Prop :=
  s.iterations < opts.max_iters ∧ opts.opt_tol < s.r_gap ∧
    opts.opt_tol * l2norm b ≤ s.r_norm

noncomputable instance (b : List ℝ) (opts : SPGL1Options) :
    DecidablePred (lasso_cond b opts) := fun s => by
  unfold lasso_cond; infer_instance

/-- Python `solve_lasso_from`: `init()` followed by the while loop (the
condition caps `iterations` by `max_iters`, so a fuel of `max_iters`
dominates the possible number of iterations). -/
noncomputable def solve_lasso_from (A : LinOp) (b : List ℝ) (tau : ℝ)
    (x0 : List ℝ) (opts : SPGL1Options) : SPGL1LassoState :=
  loopIter (lasso_cond b opts) (lasso_body A b tau opts) opts.max_iters
    (lasso_init A b tau x0 opts)

/-! ### BPIC solver (`solve_bpic_from`) -/

/-- The five metrics returned by `bpic_metrics`. -/
structure BPICMetrics where
  g_dnorm : ℝ
  r_norm : ℝ
  r_gap : ℝ
  r_res_error : ℝ
  r_f_error : ℝ

/-- `bpic_metrics(b, x, g, r, f, sigma, tau)`; `x` is unused, as in the
source. -/
noncomputable def bpic_metrics (b x g r : List ℝ) (f sigma tau : ℝ) :
    BPICMetrics :=
  let g_dnorm := linf g
  let r_norm := l2norm r
  let gap := dot r (vsub r b) + tau * g_dnorm
  let f_m := max 1 f
  let r_m := max 1 r_norm
  { g_dnorm := g_dnorm
    r_norm := r_norm
    r_gap := |gap| / f_m
    r_res_error := |r_norm - sigma| / r_m
    r_f_error := |f - sigma ^ 2 / 2| / f_m }

/-- The quadruple `(x, r, g, f)` recomputed after a projection. -/
structure Xrgf where
  x : List ℝ
  r : List ℝ
  g : List ℝ
  f : ℝ

/-- `update_xrgf`: project `x` to the ball of radius `tau` and recompute
residual, gradient and objective. -/
noncomputable def update_xrgf (A : LinOp) (b x : List ℝ) (tau : ℝ) : Xrgf :=
  let xp := project_to_l1_ball x tau
  let r := vsub b (A.times xp)
  let g := vneg (A.trans r)
  let f := obj_val r
  ⟨xp, r, g, f⟩

/-- `SPGL1BPState`. -/
structure SPGL1BPState where
  x : List ℝ
  g : List ℝ
  r : List ℝ
  f_past : List ℝ
  tau : ℝ
  r_norm : ℝ
  r_gap : ℝ
  r_res_error : ℝ
  r_f_error : ℝ
  alpha : ℝ
  alpha_next : ℝ
  iterations : ℕ
  n_times : ℕ
  n_trans : ℕ
  n_newton : ℕ
  n_ls_iters : ℕ

/-- The `init()` of `solve_bpic_from`: seed `tau = ‖x0‖₁`, update the
state, apply one Newton-style correction to `tau` (clamped at 0), update
again, and estimate the first spectral step. -/
noncomputable def bpic_init (A : LinOp) (b : List ℝ) (sigma : ℝ)
    (x0 : List ℝ) (opts : SPGL1Options) : SPGL1BPState :=
  let tau0 := l1norm x0
  let u1 := update_xrgf A b x0 tau0
  let m1 := bpic_metrics b u1.x u1.g u1.r u1.f sigma tau0
  let tau := max 0 (tau0 + m1.r_norm * (m1.r_norm - sigma) / m1.g_dnorm)
  let u2 := update_xrgf A b u1.x tau
  let m2 := bpic_metrics b u2.x u2.g u2.r u2.f sigma tau
  let d := vsub (project_to_l1_ball (vsub u2.x u2.g) tau) u2.x
  let d_norm := linf d
  let alpha := clip (1 / d_norm) opts.alpha_min opts.alpha_max
  let f_past := List.replicate opts.memory u2.f
  ⟨u2.x, u2.g, u2.r, f_past, tau, m2.r_norm, m2.r_gap, m2.r_res_error,
    m2.r_f_error, alpha, alpha, 1, 2, 2, 0, 0⟩

/-- The line search performed by one BPIC iteration, at the current `tau`. -/
noncomputable def bpicLS (A : LinOp) (b : List ℝ) (opts : SPGL1Options)
    (s : SPGL1BPState) : CurvyLineSearchState :=
  curvy_line_search A b s.x s.g s.alpha_next (arr_max s.f_past)
    project_to_l1_ball s.tau opts.gamma

/-- The gradient recomputed from the line-search residual in one BPIC
iteration. -/
noncomputable def bpicG (A : LinOp) (b : List ℝ) (opts : SPGL1Options)
    (s : SPGL1BPState) : List ℝ :=
  vneg (A.trans (bpicLS A b opts s).r_new)

/-- The metrics computed by one BPIC iteration, at the incoming `s.tau`. -/
noncomputable def bpicMet (A : LinOp) (b : List ℝ) (sigma : ℝ)
    (opts : SPGL1Options) (s : SPGL1BPState) : BPICMetrics :=
  bpic_metrics b (bpicLS A b opts s).x_new (bpicG A b opts s)
    (bpicLS A b opts s).r_new (bpicLS A b opts s).f_val sigma s.tau

/-- The two-branch trigger `flag_c` deciding whether `tau` is re-estimated
this iteration. -/
noncomputable def bpicFlagC (A : LinOp) (b : List ℝ) (sigma : ℝ)
    (opts : SPGL1Options) (s : SPGL1BPState) : Prop :=
  let f := (bpicLS A b opts s).f_val
  let f_change := |f - s.f_past.headD 0|
  (f_change ≤ opts.dec_tol * f ∧ 2 * sigma < (bpicMet A b sigma opts s).r_norm) ∨
  (f_change ≤ (1 / 10) * f * |(bpicMet A b sigma opts s).r_norm - sigma| ∧
    (bpicMet A b sigma opts s).r_norm ≤ 2 * sigma)

noncomputable instance (A : LinOp) (b : List ℝ) (sigma : ℝ)
    (opts : SPGL1Options) : DecidablePred (bpicFlagC A b sigma opts) :=
  fun s => by unfold bpicFlagC; infer_instance

/-- The Newton-style `tau` update of one BPIC iteration: when triggered,
`max(0, tau + r_norm*(r_norm - sigma)/g_dualnorm)`, otherwise unchanged. -/
noncomputable def bpicTauNext (A : LinOp) (b : List ℝ) (sigma : ℝ)
    (opts : SPGL1Options) (s : SPGL1BPState) : ℝ :=
  if bpicFlagC A b sigma opts s then
    max 0 (s.tau + (bpicMet A b sigma opts s).r_norm *
      ((bpicMet A b sigma opts s).r_norm - sigma) /
        (bpicMet A b sigma opts s).g_dnorm)
  else s.tau

/-- The `body_func` of `solve_bpic_from`: line search at the current `tau`,
metrics, optional Newton correction of `tau`, re-synchronisation of
`(x, r, g, f)` when `tau` shrank, buffer push and BB step. -/
noncomputable def bpic_body (A : LinOp) (b : List ℝ) (sigma : ℝ)
    (opts : SPGL1Options) (s : SPGL1BPState) : SPGL1BPState :=
  let ls := bpicLS A b opts s
  let met := bpicMet A b sigma opts s
  let tau := bpicTauNext A b sigma opts s
  let u := if tau < s.tau then update_xrgf A b ls.x_new tau
    else ⟨ls.x_new, ls.r_new, bpicG A b opts s, ls.f_val⟩
  let f_past := cbuf_push_left s.f_past u.f
  let sv := vsub u.x s.x
  let y := vsub u.g s.g
  let alpha_next := bb_alpha_next opts.alpha_min opts.alpha_max
    (dot sv sv) (dot sv y)
  ⟨u.x, u.g, u.r, f_past, tau, met.r_norm, met.r_gap, met.r_res_error,
    met.r_f_error, ls.alpha, alpha_next, s.iterations + 1, 2, 2,
    s.n_newton, ls.n_iters⟩

/-- The `cond_func` of `solve_bpic_from`: the compound
converged-vs-infeasible predicate conjoined with the iteration cap. -/
def bpic_cond (b : List ℝ) (sigma : ℝ) (opts : SPGL1Options)
    (s : SPGL1BPState) : Prop :=
  ((max opts.opt_tol s.r_f_error < s.r_gap ∧ opts.opt_tol < s.r_res_error) ∨
    (sigma < s.r_norm ∧ opts.opt_tol < s.r_res_error ∧
      opts.bp_tol * l2norm b < s.r_norm)) ∧
  s.iterations < opts.max_iters

noncomputable instance (b : List ℝ) (sigma : ℝ) (opts : SPGL1Options) :
    DecidablePred (bpic_cond b sigma opts) := fun s => by
  unfold bpic_cond; infer_instance

/-- Python `solve_bpic_from`: `init()` followed by the while loop (again the
condition caps `iterations` by `max_iters`). -/
noncomputable def solve_bpic_from (A : LinOp) (b : List ℝ) (sigma : ℝ)
    (x0 : List ℝ) (opts : SPGL1Options) : SPGL1BPState :=
  loopIter (bpic_cond b sigma opts) (bpic_body A b sigma opts) opts.max_iters
    (bpic_init A b sigma x0 opts)

/-! ### Invariant lemmas for the line search -/

theorem ls_init_x_new (A : LinOp) (b x g : List ℝ)
    (proj : List ℝ → ℝ → List ℝ) (tau gamma f_max alpha0 : ℝ) :
    (ls_init A b x g proj tau gamma f_max alpha0).x_new =
      proj (vsub x (vsmul (alpha0 * 1) g)) tau := rfl

theorem ls_next_n_iters (A : LinOp) (b x g : List ℝ)
    (proj : List ℝ → ℝ → List ℝ) (tau gamma f_max : ℝ)
    (s : CurvyLineSearchState) :
    (ls_next A b x g proj tau gamma f_max s).n_iters = s.n_iters + 1 := rfl

theorem ls_result_feasible {tau : ℝ} (htau : 0 ≤ tau) (A : LinOp)
    (b x g : List ℝ) (alpha0 f_max gamma : ℝ) :
    l1norm (curvy_line_search A b x g alpha0 f_max
      project_to_l1_ball tau gamma).x_new ≤ tau := by
  unfold curvy_line_search
  rcases loopIter_eq_or ls_cond
      (ls_next A b x g project_to_l1_ball tau gamma f_max) 10
      (ls_init A b x g project_to_l1_ball tau gamma f_max alpha0) with h | ⟨t, ht⟩
  · rw [h]
    exact l1norm_project_le htau _
  · rw [ht]
    exact l1norm_project_le htau _

/-- The loop of the line search, unrolled: the result is the `k`-th iterate
of `next_func` from `init()`, every earlier iterate satisfies the loop
condition, and the result fails it. -/
theorem ls_result_spec (A : LinOp) (b x g : List ℝ) (alpha0 f_max : ℝ)
    (proj : List ℝ → ℝ → List ℝ) (tau gamma : ℝ) :
    ∃ k, curvy_line_search A b x g alpha0 f_max proj tau gamma =
        (ls_next A b x g proj tau gamma f_max)^[k]
          (ls_init A b x g proj tau gamma f_max alpha0) ∧
      (∀ j, j < k → ls_cond ((ls_next A b x g proj tau gamma f_max)^[j]
          (ls_init A b x g proj tau gamma f_max alpha0))) ∧
      ¬ ls_cond (curvy_line_search A b x g alpha0 f_max proj tau gamma) := by
  obtain ⟨k, _, heq, hcond⟩ := loopIter_iterate ls_cond
    (ls_next A b x g proj tau gamma f_max) 10
    (ls_init A b x g proj tau gamma f_max alpha0)
  refine ⟨k, heq, hcond, ?_⟩
  unfold curvy_line_search
  exact loopIter_exit ls_cond _ (fun s => 10 - s.n_iters)
    (fun t htc => by
      have h1 : t.n_iters < 10 := htc.1
      have h2 := ls_next_n_iters A b x g proj tau gamma f_max t
      show 10 - (ls_next A b x g proj tau gamma f_max t).n_iters < 10 - t.n_iters
      omega)
    10 _ (Nat.sub_le 10 _)

/-- Along the loop, `alpha` stays nonnegative and `f_lim` is either the
initial reference `f_max` or the Armijo bound of the state itself. -/
theorem ls_flim_invariant (A : LinOp) (b x g : List ℝ) (alpha0 f_max : ℝ)
    (proj : List ℝ → ℝ → List ℝ) (tau gamma : ℝ) (ha : 0 ≤ alpha0) :
    0 ≤ (curvy_line_search A b x g alpha0 f_max proj tau gamma).alpha ∧
    ((curvy_line_search A b x g alpha0 f_max proj tau gamma).f_lim = f_max ∨
      (curvy_line_search A b x g alpha0 f_max proj tau gamma).f_lim =
        f_max + gamma *
          (curvy_line_search A b x g alpha0 f_max proj tau gamma).alpha *
          (curvy_line_search A b x g alpha0 f_max proj tau gamma).gtd) := by
  unfold curvy_line_search
  exact loopIter_invariant ls_cond (ls_next A b x g proj tau gamma f_max)
    (fun s => 0 ≤ s.alpha ∧ (s.f_lim = f_max ∨
      s.f_lim = f_max + gamma * s.alpha * s.gtd))
    (fun t ht => ⟨by
        have : (ls_next A b x g proj tau gamma f_max t).alpha = t.alpha / 2 := rfl
        rw [this]
        linarith [ht.1], Or.inr rfl⟩)
    10 _ ⟨ha, Or.inl rfl⟩

/-! ### Invariant lemmas for the solvers -/

theorem lasso_init_counters (A : LinOp) (b : List ℝ) (tau : ℝ) (x0 : List ℝ)
    (opts : SPGL1Options) :
    (lasso_init A b tau x0 opts).n_times = 2 ∧
    (lasso_init A b tau x0 opts).n_trans = 2 := ⟨rfl, rfl⟩

theorem lasso_body_counters (A : LinOp) (b : List ℝ) (tau : ℝ)
    (opts : SPGL1Options) (s : SPGL1LassoState) :
    (lasso_body A b tau opts s).n_times = 2 ∧
    (lasso_body A b tau opts s).n_trans = 2 := ⟨rfl, rfl⟩

theorem bpic_init_counters (A : LinOp) (b : List ℝ) (sigma : ℝ)
    (x0 : List ℝ) (opts : SPGL1Options) :
    (bpic_init A b sigma x0 opts).n_times = 2 ∧
    (bpic_init A b sigma x0 opts).n_trans = 2 := ⟨rfl, rfl⟩

theorem bpic_body_counters (A : LinOp) (b : List ℝ) (sigma : ℝ)
    (opts : SPGL1Options) (s : SPGL1BPState) :
    (bpic_body A b sigma opts s).n_times = 2 ∧
    (bpic_body A b sigma opts s).n_trans = 2 := ⟨rfl, rfl⟩

theorem lasso_init_feasible {tau : ℝ} (htau : 0 ≤ tau) (A : LinOp)
    (b x0 : List ℝ) (opts : SPGL1Options) :
    l1norm (lasso_init A b tau x0 opts).x ≤ tau :=
  l1norm_project_le htau x0

theorem lasso_body_feasible {tau : ℝ} (htau : 0 ≤ tau) (A : LinOp)
    (b : List ℝ) (opts : SPGL1Options) (s : SPGL1LassoState) :
    l1norm (lasso_body A b tau opts s).x ≤ tau :=
  ls_result_feasible htau A b s.x s.g s.alpha_next (arr_max s.f_past)
    opts.gamma

theorem solve_lasso_feasible {tau : ℝ} (htau : 0 ≤ tau) (A : LinOp)
    (b x0 : List ℝ) (opts : SPGL1Options) :
    l1norm (solve_lasso_from A b tau x0 opts).x ≤ tau := by
  unfold solve_lasso_from
  rcases loopIter_eq_or (lasso_cond b opts) (lasso_body A b tau opts)
      opts.max_iters (lasso_init A b tau x0 opts) with h | ⟨t, ht⟩
  · rw [h]; exact lasso_init_feasible htau A b x0 opts
  · rw [ht]; exact lasso_body_feasible htau A b opts t

theorem bpic_body_tau_cases (A : LinOp) (b : List ℝ) (sigma : ℝ)
    (opts : SPGL1Options) (s : SPGL1BPState) :
    (bpic_body A b sigma opts s).tau =
      max 0 (s.tau + (bpicMet A b sigma opts s).r_norm *
        ((bpicMet A b sigma opts s).r_norm - sigma) /
          (bpicMet A b sigma opts s).g_dnorm) ∨
    (bpic_body A b sigma opts s).tau = s.tau := by
  have h : (bpic_body A b sigma opts s).tau = bpicTauNext A b sigma opts s := rfl
  rw [h]
  unfold bpicTauNext
  split
  · exact Or.inl rfl
  · exact Or.inr rfl

theorem bpic_body_tau_nonneg {s : SPGL1BPState} (hs : 0 ≤ s.tau)
    (A : LinOp) (b : List ℝ) (sigma : ℝ) (opts : SPGL1Options) :
    0 ≤ (bpic_body A b sigma opts s).tau := by
  rcases bpic_body_tau_cases A b sigma opts s with h | h <;> rw [h]
  · exact le_max_left 0 _
  · exact hs

theorem bpic_body_x_eq (A : LinOp) (b : List ℝ) (sigma : ℝ)
    (opts : SPGL1Options) (s : SPGL1BPState) :
    (bpic_body A b sigma opts s).x =
      (if bpicTauNext A b sigma opts s < s.tau then
        update_xrgf A b (bpicLS A b opts s).x_new (bpicTauNext A b sigma opts s)
      else ⟨(bpicLS A b opts s).x_new, (bpicLS A b opts s).r_new,
        bpicG A b opts s, (bpicLS A b opts s).f_val⟩).x := rfl

theorem bpicTauNext_nonneg_of_lt {A : LinOp} {b : List ℝ} {sigma : ℝ}
    {opts : SPGL1Options} {s : SPGL1BPState}
    (h : bpicTauNext A b sigma opts s < s.tau) :
    0 ≤ bpicTauNext A b sigma opts s := by
  unfold bpicTauNext at h ⊢
  split at h
  · rw [if_pos (by assumption)]
    exact le_max_left 0 _
  · exact absurd h (lt_irrefl _)

theorem bpic_body_feasible {s : SPGL1BPState} (hs : 0 ≤ s.tau)
    (A : LinOp) (b : List ℝ) (sigma : ℝ) (opts : SPGL1Options) :
    l1norm (bpic_body A b sigma opts s).x ≤ (bpic_body A b sigma opts s).tau := by
  have htau : (bpic_body A b sigma opts s).tau = bpicTauNext A b sigma opts s := rfl
  rw [bpic_body_x_eq, htau]
  by_cases h : bpicTauNext A b sigma opts s < s.tau
  · rw [if_pos h]
    exact l1norm_project_le (bpicTauNext_nonneg_of_lt h) _
  · rw [if_neg h]
    have hres : l1norm (bpicLS A b opts s).x_new ≤ s.tau :=
      ls_result_feasible hs A b s.x s.g s.alpha_next (arr_max s.f_past)
        opts.gamma
    exact le_trans hres (not_lt.mp h)

theorem bpic_init_feasible (A : LinOp) (b : List ℝ) (sigma : ℝ)
    (x0 : List ℝ) (opts : SPGL1Options) :
    0 ≤ (bpic_init A b sigma x0 opts).tau ∧
    l1norm (bpic_init A b sigma x0 opts).x ≤ (bpic_init A b sigma x0 opts).tau := by
  constructor
  · exact le_max_left 0 _
  · exact l1norm_project_le (le_max_left 0 _) _

theorem l1norm_singleton (a : α) : l1norm [a] = |a| := by
  simp [l1norm]

theorem linf_singleton (a : ℝ) : linf [a] = |a| := by
  simp only [linf, List.map_cons, List.map_nil, List.foldr_cons, List.foldr_nil]
  exact max_eq_left (abs_nonneg a)

theorem dot_singleton (a c : ℝ) : dot [a] [c] = a * c := by
  simp [dot]

theorem l2norm_singleton (a : ℝ) : l2norm [a] = |a| := by
  simp only [l2norm, List.map_cons, List.map_nil, List.sum_cons, List.sum_nil,
    add_zero, ← sq]
  exact Real.sqrt_sq_eq_abs a

theorem solve_bpic_feasible (A : LinOp) (b : List ℝ) (sigma : ℝ)
    (x0 : List ℝ) (opts : SPGL1Options) :
    0 ≤ (solve_bpic_from A b sigma x0 opts).tau ∧
    l1norm (solve_bpic_from A b sigma x0 opts).x ≤
      (solve_bpic_from A b sigma x0 opts).tau := by
  unfold solve_bpic_from
  exact loopIter_invariant (bpic_cond b sigma opts) (bpic_body A b sigma opts)
    (fun s => 0 ≤ s.tau ∧ l1norm s.x ≤ s.tau)
    (fun t ht => ⟨bpic_body_tau_nonneg ht.1 A b sigma opts,
      bpic_body_feasible ht.1 A b sigma opts⟩)
    opts.max_iters _ (bpic_init_feasible A b sigma x0 opts)

/-- The fuel of the LASSO loop never truncates it: the returned state
genuinely fails the loop condition, as for the unbounded while loop. -/
theorem solve_lasso_exit (A : LinOp) (b : List ℝ) (tau : ℝ) (x0 : List ℝ)
    (opts : SPGL1Options) :
    ¬ lasso_cond b opts (solve_lasso_from A b tau x0 opts) := by
  unfold solve_lasso_from
  exact loopIter_exit _ _ (fun s => opts.max_iters - s.iterations)
    (fun t ht => by
      have h1 : t.iterations < opts.max_iters := ht.1
      show opts.max_iters - (lasso_body A b tau opts t).iterations <
        opts.max_iters - t.iterations
      have h2 : (lasso_body A b tau opts t).iterations = t.iterations + 1 := rfl
      omega)
    opts.max_iters _ (Nat.sub_le _ _)

/-- The fuel of the BPIC loop never truncates it either. -/
theorem solve_bpic_exit (A : LinOp) (b : List ℝ) (sigma : ℝ) (x0 : List ℝ)
    (opts : SPGL1Options) :
    ¬ bpic_cond b sigma opts (solve_bpic_from A b sigma x0 opts) := by
  unfold solve_bpic_from
  exact loopIter_exit _ _ (fun s => opts.max_iters - s.iterations)
    (fun t ht => by
      have h1 : t.iterations < opts.max_iters := ht.2
      show opts.max_iters - (bpic_body A b sigma opts t).iterations <
        opts.max_iters - t.iterations
      have h2 : (bpic_body A b sigma opts t).iterations = t.iterations + 1 := rfl
      omega)
    opts.max_iters _ (Nat.sub_le _ _)

/-! ### Concrete instances for counterexamples and witnesses -/

/-- The 1x1 identity operator, i.e. the dense matrix `[[1]]`. -/
def op1 : LinOp := ⟨1, 1, fun v => v, fun v => v⟩

/-- The trajectory of the line search on the concrete inputs of the C2
counterexample: at step count `k` the step is `a`, the scale is 1, the
candidate is `[-a]` with residual `[2 + a]`. -/
noncomputable def c2state (a aold flim : ℝ) (k : ℕ) : CurvyLineSearchState :=
  ⟨a, 1, [-a], [2 + a], [-a], -a, aold, (1 / 2) * ((2 + a) * (2 + a)),
    flim, k, 0⟩

theorem c2_init :
    ls_init op1 [2] [0] [1] project_to_l1_ball 1 (1 / 10000) 0 1 =
      c2state 1 0 0 1 := by
  have hproj : project_to_l1_ball [(-1:ℝ)] 1 = [-1] := by
    apply project_eq_of_feasible
    rw [l1norm_singleton]
    norm_num
  norm_num [ls_init, ls_candidate, c2state, CurvyLineSearchState.mk.injEq,
    op1, vsub, vsmul, dot, obj_val, hproj]

theorem loopIter_step_any {σ : Type*} (cond : σ → Prop) [DecidablePred cond]
    (body : σ → σ) (fuel : ℕ) (hfuel : fuel ≠ 0) (s t : σ)
    (hc : cond s) (hb : body s = t) :
    loopIter cond body fuel s = loopIter cond body (fuel - 1) t := by
  cases fuel with
  | zero => omega
  | succ n =>
    rw [loopIter, if_pos hc, hb]
    congr 1

theorem loopIter_stop {σ : Type*} (cond : σ → Prop) [DecidablePred cond]
    (body : σ → σ) (fuel : ℕ) (s : σ) (hc : ¬ cond s) :
    loopIter cond body fuel s = s := by
  cases fuel with
  | zero => rfl
  | succ n => rw [loopIter, if_neg hc]

theorem c2_step (a aold flim a2 : ℝ) (k : ℕ) (ha : 0 < a) (ha1 : a ≤ 1)
    (hfar : ¬ |a - aold| ≤ 1 / 1000000 * a) (ha2 : a2 = a / 2) :
    ls_next op1 [2] [0] [1] project_to_l1_ball 1 (1 / 10000) 0
      (c2state a aold flim k) =
      c2state a2 a (0 + 1 / 10000 * a2 * -a2) (k + 1) := by
  subst ha2
  have hd : l2norm [-a] = a := by
    rw [l2norm_singleton, abs_neg, abs_of_pos ha]
  have harg : vsub [(0:ℝ)] (vsmul (a / 2 * 1) [1]) = [-(a / 2)] := by
    simp [vsub, vsmul]
  have hproj : project_to_l1_ball [(-(a / 2) : ℝ)] 1 = [-(a / 2)] := by
    apply project_eq_of_feasible
    rw [l1norm_singleton, abs_neg, abs_of_pos (by linarith)]
    linarith
  simp only [ls_next, ls_candidate, c2state]
  rw [hd]
  rw [if_neg hfar, if_neg hfar]
  rw [harg, hproj]
  norm_num [CurvyLineSearchState.mk.injEq, vsub, vsmul, dot, obj_val, op1]

/-- On the concrete inputs `A = [[1]]`, `b = [2]`, `x = [0]`, `g = [1]`,
`alpha0 = 1`, `f_max = 0`, `tau = 1`, `gamma = 1e-4`, the line search
exhausts its iteration cap: the loop runs all nine halving steps and
returns the tenth candidate. -/
theorem c2_run :
    curvy_line_search op1 [2] [0] [1] 1 0 project_to_l1_ball 1 (1 / 10000) =
      c2state (1/512) (1/256) (0 + 1 / 10000 * (1/512) * -(1/512)) 10 := by
  unfold curvy_line_search
  rw [c2_init]
  rw [loopIter_step_any ls_cond _ _ (by norm_num) _ _
    (by norm_num [ls_cond, c2state])
    (c2_step 1 0 0 (1/2) 1 (by norm_num) (by norm_num) (by norm_num [abs_of_pos])
      (by norm_num))]
  rw [loopIter_step_any ls_cond _ _ (by norm_num) _ _
    (by norm_num [ls_cond, c2state])
    (c2_step (1/2) 1 (0 + 1 / 10000 * (1/2) * -(1/2)) (1/4) 2 (by norm_num)
      (by norm_num) (by norm_num [abs_of_pos]) (by norm_num))]
  rw [loopIter_step_any ls_cond _ _ (by norm_num) _ _
    (by norm_num [ls_cond, c2state])
    (c2_step (1/4) (1/2) (0 + 1 / 10000 * (1/4) * -(1/4)) (1/8) 3
      (by norm_num) (by norm_num) (by norm_num [abs_of_pos]) (by norm_num))]
  rw [loopIter_step_any ls_cond _ _ (by norm_num) _ _
    (by norm_num [ls_cond, c2state])
    (c2_step (1/8) (1/4) (0 + 1 / 10000 * (1/8) * -(1/8)) (1/16) 4
      (by norm_num) (by norm_num) (by norm_num [abs_of_pos]) (by norm_num))]
  rw [loopIter_step_any ls_cond _ _ (by norm_num) _ _
    (by norm_num [ls_cond, c2state])
    (c2_step (1/16) (1/8) (0 + 1 / 10000 * (1/16) * -(1/16)) (1/32) 5
      (by norm_num) (by norm_num) (by norm_num [abs_of_pos]) (by norm_num))]
  rw [loopIter_step_any ls_cond _ _ (by norm_num) _ _
    (by norm_num [ls_cond, c2state])
    (c2_step (1/32) (1/16) (0 + 1 / 10000 * (1/32) * -(1/32)) (1/64) 6
      (by norm_num) (by norm_num) (by norm_num [abs_of_pos]) (by norm_num))]
  rw [loopIter_step_any ls_cond _ _ (by norm_num) _ _
    (by norm_num [ls_cond, c2state])
    (c2_step (1/64) (1/32) (0 + 1 / 10000 * (1/64) * -(1/64)) (1/128) 7
      (by norm_num) (by norm_num) (by norm_num [abs_of_pos]) (by norm_num))]
  rw [loopIter_step_any ls_cond _ _ (by norm_num) _ _
    (by norm_num [ls_cond, c2state])
    (c2_step (1/128) (1/64) (0 + 1 / 10000 * (1/128) * -(1/128)) (1/256) 8
      (by norm_num) (by norm_num) (by norm_num [abs_of_pos]) (by norm_num))]
  rw [loopIter_step_any ls_cond _ _ (by norm_num) _ _
    (by norm_num [ls_cond, c2state])
    (c2_step (1/256) (1/128) (0 + 1 / 10000 * (1/256) * -(1/256)) (1/512) 9
      (by norm_num) (by norm_num) (by norm_num [abs_of_pos]) (by norm_num))]
  exact loopIter_stop _ _ _ _ (by norm_num [ls_cond, c2state])

/-! ### The claims -/

/-- Claim C1: the formula of `lasso_metrics` is the claimed one, but its
`b` and `tau` are unbound module-level names, so every call of the function
as written fails with a `NameError` instead of using the `b` and `tau`
given to the solver: under the actual module globals (no `b`, no `tau`)
the lookup yields no value for every input, while under an environment
binding the two names the function would compute exactly the claimed
metrics. -/
theorem claim_C1 :
    (∀ x g r : List ℝ, ∀ f : ℝ,
      lasso_metrics_src spgl1_module_globals x g r f = none) ∧
    (∀ bv : List ℝ, ∀ tv : ℝ, ∀ x g r : List ℝ, ∀ f : ℝ,
      lasso_metrics_src ⟨some bv, some tv⟩ x g r f =
        some (lasso_metrics bv tv x g r f)) :=
  ⟨fun _ _ _ _ => rfl, fun _ _ _ _ _ _ => rfl⟩

/-- Claim C7: for `q ≥ 0` the projector output is feasible and is the
Euclidean-nearest point to `x` within the l1 ball of radius `q` among
vectors of the same dimension; moreover, when the breakpoint scan selects
index 0 on an infeasible input, `K` falls back to the full length `n` and
the threshold is `(l1norm x - q)/n`. -/
theorem claim_C7 {α : Type*} [LinearOrderedField α] (x : List α) (q : α)
    (hq : 0 ≤ q) :
    l1norm (project_to_l1_ball x q) ≤ q ∧
    (∀ z, z.length = x.length → l1norm z ≤ q →
      distSq x (project_to_l1_ball x q) ≤ distSq x z) ∧
    (q < l1norm x → argmaxBool (projFlags x q) = 0 →
      projK x q = x.length ∧
      projKappa x q = (l1norm x - q) / (x.length : α)) :=
  ⟨l1norm_project_le hq x,
    fun z hlen hz => project_nearest hq x z hlen hz,
    fun hx h0 => projK_fallback hq hx h0⟩

theorem claim_C7_witness :
    0 ≤ (1 : ℚ) ∧ l1norm (project_to_l1_ball [(3 : ℚ), -1] 1) ≤ 1 :=
  ⟨by norm_num, (claim_C7 [(3 : ℚ), -1] 1 (by norm_num)).1⟩

/-- Claim C8: a vector already inside the ball is returned exactly
unchanged (the feasibility test is the first thing `project_to_l1_ball`
does), so the projection is the identity on feasible inputs. -/
theorem claim_C8 {α : Type*} [LinearOrderedField α] (x : List α) (q : α)
    (h : l1norm x ≤ q) :
    project_to_l1_ball x q = x :=
  project_eq_of_feasible h

theorem claim_C8_witness :
    l1norm [(1 : ℚ)/2, -1/4] ≤ 1 ∧
    project_to_l1_ball [(1 : ℚ)/2, -1/4] 1 = [(1 : ℚ)/2, -1/4] :=
  ⟨by norm_num [l1norm, abs_of_pos], claim_C8 _ _ (by norm_num [l1norm, abs_of_pos])⟩

/-- Claim C9: in both solver bodies the next spectral step is the
Barzilai-Borwein value `clip(sts/sty, alpha_min, alpha_max)` with fallback
`alpha_max` whenever `sty ≤ 0` (in particular for `s = 0`), computed from
`s = x_new - x_old` and `y = g_new - g_old`; whenever
`alpha_min ≤ alpha_max` the result lies in `[alpha_min, alpha_max]`, and it
is positive when `alpha_min > 0`. -/
theorem claim_C9 :
    (∀ amin amax sts sty : ℝ, sty ≤ 0 →
      bb_alpha_next amin amax sts sty = amax) ∧
    (∀ amin amax sts sty : ℝ, amin ≤ amax →
      amin ≤ bb_alpha_next amin amax sts sty ∧
      bb_alpha_next amin amax sts sty ≤ amax) ∧
    (∀ amin amax sts sty : ℝ, 0 < amin → amin ≤ amax →
      0 < bb_alpha_next amin amax sts sty) ∧
    (∀ (A : LinOp) (b : List ℝ) (tau : ℝ) (opts : SPGL1Options)
        (s : SPGL1LassoState),
      (lasso_body A b tau opts s).alpha_next =
        bb_alpha_next opts.alpha_min opts.alpha_max
          (dot (vsub (lasso_body A b tau opts s).x s.x)
            (vsub (lasso_body A b tau opts s).x s.x))
          (dot (vsub (lasso_body A b tau opts s).x s.x)
            (vsub (lasso_body A b tau opts s).g s.g))) ∧
    (∀ (A : LinOp) (b : List ℝ) (sigma : ℝ) (opts : SPGL1Options)
        (s : SPGL1BPState),
      (bpic_body A b sigma opts s).alpha_next =
        bb_alpha_next opts.alpha_min opts.alpha_max
          (dot (vsub (bpic_body A b sigma opts s).x s.x)
            (vsub (bpic_body A b sigma opts s).x s.x))
          (dot (vsub (bpic_body A b sigma opts s).x s.x)
            (vsub (bpic_body A b sigma opts s).g s.g))) := by
  have hbounds : ∀ amin amax sts sty : ℝ, amin ≤ amax →
      amin ≤ bb_alpha_next amin amax sts sty ∧
      bb_alpha_next amin amax sts sty ≤ amax := by
    intro amin amax sts sty h
    unfold bb_alpha_next clip
    split
    · exact ⟨h, le_refl _⟩
    · exact ⟨le_min (le_max_right _ _) h, min_le_right _ _⟩
  refine ⟨?_, hbounds, ?_, ?_, ?_⟩
  · intro amin amax sts sty h
    unfold bb_alpha_next
    rw [if_pos h]
  · intro amin amax sts sty h0 h
    exact lt_of_lt_of_le h0 (hbounds amin amax sts sty h).1
  · intro A b tau opts s
    rfl
  · intro A b sigma opts s
    rfl

theorem claim_C9_witness :
    (0 : ℝ) ≤ 0 ∧ bb_alpha_next (1/10^16 : ℝ) (10^5) 0 0 = 10^5 :=
  ⟨le_refl 0, claim_C9.1 (1/10^16 : ℝ) (10^5) 0 0 (le_refl 0)⟩

/-- Claim C10: the operator-application counters `n_times` and `n_trans`
are overwritten with the constant 2 by the init step and by every
iteration of both solvers, so the returned final state always carries the
value 2 in both counters rather than a cumulative total. -/
theorem claim_C10 :
    (∀ (A : LinOp) (b : List ℝ) (tau : ℝ) (x0 : List ℝ)
        (opts : SPGL1Options),
      (lasso_init A b tau x0 opts).n_times = 2 ∧
      (lasso_init A b tau x0 opts).n_trans = 2) ∧
    (∀ (A : LinOp) (b : List ℝ) (tau : ℝ) (opts : SPGL1Options)
        (s : SPGL1LassoState),
      (lasso_body A b tau opts s).n_times = 2 ∧
      (lasso_body A b tau opts s).n_trans = 2) ∧
    (∀ (A : LinOp) (b : List ℝ) (tau : ℝ) (x0 : List ℝ)
        (opts : SPGL1Options),
      (solve_lasso_from A b tau x0 opts).n_times = 2 ∧
      (solve_lasso_from A b tau x0 opts).n_trans = 2) ∧
    (∀ (A : LinOp) (b : List ℝ) (sigma : ℝ) (x0 : List ℝ)
        (opts : SPGL1Options),
      (bpic_init A b sigma x0 opts).n_times = 2 ∧
      (bpic_init A b sigma x0 opts).n_trans = 2) ∧
    (∀ (A : LinOp) (b : List ℝ) (sigma : ℝ) (opts : SPGL1Options)
        (s : SPGL1BPState),
      (bpic_body A b sigma opts s).n_times = 2 ∧
      (bpic_body A b sigma opts s).n_trans = 2) ∧
    (∀ (A : LinOp) (b : List ℝ) (sigma : ℝ) (x0 : List ℝ)
        (opts : SPGL1Options),
      (solve_bpic_from A b sigma x0 opts).n_times = 2 ∧
      (solve_bpic_from A b sigma x0 opts).n_trans = 2) := by
  refine ⟨fun A b tau x0 opts => ⟨rfl, rfl⟩,
    fun A b tau opts s => ⟨rfl, rfl⟩, ?_,
    fun A b sigma x0 opts => ⟨rfl, rfl⟩,
    fun A b sigma opts s => ⟨rfl, rfl⟩, ?_⟩
  · intro A b tau x0 opts
    unfold solve_lasso_from
    rcases loopIter_eq_or (lasso_cond b opts) (lasso_body A b tau opts)
        opts.max_iters (lasso_init A b tau x0 opts) with h | ⟨t, ht⟩
    · rw [h]; exact ⟨rfl, rfl⟩
    · rw [ht]; exact ⟨rfl, rfl⟩
  · intro A b sigma x0 opts
    unfold solve_bpic_from
    rcases loopIter_eq_or (bpic_cond b sigma opts) (bpic_body A b sigma opts)
        opts.max_iters (bpic_init A b sigma x0 opts) with h | ⟨t, ht⟩
    · rw [h]; exact ⟨rfl, rfl⟩
    · rw [ht]; exact ⟨rfl, rfl⟩

/-- Claim C2 counterexample: a concrete call of `curvy_line_search`
(`A = [[1]]`, `b = [2]`, `x = [0]`, `g = [1]`, `alpha0 = 1`, `f_max = 0`,
the real projector, `tau = 1`, `gamma = 1e-4`) exhausts the iteration cap:
the returned state has a negative `gtd` (so it was not accepted through
the `gtd ≥ 0` early exit), yet its objective value is not below the
`f_max = 0` passed in. -/
theorem claim_C2_counterexample :
    (curvy_line_search op1 [2] [0] [1] 1 0 project_to_l1_ball 1
      (1 / 10000)).gtd < 0 ∧
    ¬ ((curvy_line_search op1 [2] [0] [1] 1 0 project_to_l1_ball 1
      (1 / 10000)).f_val < 0) := by
  rw [c2_run]
  constructor
  · norm_num [c2state]
  · norm_num [c2state]

/-- Claim C2 amended: when the returned state was accepted through the
Armijo test (`f_val < f_lim`) with a negative `gtd` — i.e. not via the
`gtd ≥ 0` early exit and not via the iteration cap — and the inputs
satisfy `gamma ≥ 0` and `alpha0 ≥ 0`, the returned objective value is
strictly below the reference value `f_max`. -/
theorem claim_C2_amended (A : LinOp) (b x g : List ℝ) (alpha0 f_max : ℝ)
    (proj : List ℝ → ℝ → List ℝ) (tau gamma : ℝ)
    (hgamma : 0 ≤ gamma) (halpha : 0 ≤ alpha0) :
    (curvy_line_search A b x g alpha0 f_max proj tau gamma).gtd < 0 →
    (curvy_line_search A b x g alpha0 f_max proj tau gamma).f_val <
      (curvy_line_search A b x g alpha0 f_max proj tau gamma).f_lim →
    (curvy_line_search A b x g alpha0 f_max proj tau gamma).f_val < f_max := by
  intro hgtd hlt
  obtain ⟨halpha2, hflim⟩ :=
    ls_flim_invariant A b x g alpha0 f_max proj tau gamma halpha
  rcases hflim with h | h
  · rw [h] at hlt
    exact hlt
  · rw [h] at hlt
    have hnp : gamma *
        (curvy_line_search A b x g alpha0 f_max proj tau gamma).alpha *
        (curvy_line_search A b x g alpha0 f_max proj tau gamma).gtd ≤ 0 :=
      mul_nonpos_of_nonneg_of_nonpos (mul_nonneg hgamma halpha2)
        (le_of_lt hgtd)
    linarith

theorem c2w_run :
    curvy_line_search op1 [1] [0] [-1] 1 1 project_to_l1_ball 1 (1 / 10000) =
      ⟨1, 1, [1], [0], [1], -1, 0, 0, 1, 1, 0⟩ := by
  have hproj : project_to_l1_ball [(1:ℝ)] 1 = [1] := by
    apply project_eq_of_feasible
    rw [l1norm_singleton]
    norm_num
  have hinit : ls_init op1 [1] [0] [-1] project_to_l1_ball 1 (1 / 10000) 1 1 =
      ⟨1, 1, [1], [0], [1], -1, 0, 0, 1, 1, 0⟩ := by
    norm_num [ls_init, ls_candidate, CurvyLineSearchState.mk.injEq,
      op1, vsub, vsmul, dot, obj_val, hproj]
  unfold curvy_line_search
  rw [hinit]
  exact loopIter_stop _ _ _ _ (by norm_num [ls_cond])

theorem claim_C2_witness :
    0 ≤ (1 / 10000 : ℝ) ∧ 0 ≤ (1 : ℝ) ∧
    (curvy_line_search op1 [1] [0] [-1] 1 1 project_to_l1_ball 1
      (1 / 10000)).gtd < 0 ∧
    (curvy_line_search op1 [1] [0] [-1] 1 1 project_to_l1_ball 1
      (1 / 10000)).f_val <
      (curvy_line_search op1 [1] [0] [-1] 1 1 project_to_l1_ball 1
        (1 / 10000)).f_lim ∧
    (curvy_line_search op1 [1] [0] [-1] 1 1 project_to_l1_ball 1
      (1 / 10000)).f_val < 1 := by
  have hgtd : (curvy_line_search op1 [1] [0] [-1] 1 1 project_to_l1_ball 1
      (1 / 10000)).gtd < 0 := by
    rw [c2w_run]; norm_num
  have hflt : (curvy_line_search op1 [1] [0] [-1] 1 1 project_to_l1_ball 1
      (1 / 10000)).f_val <
      (curvy_line_search op1 [1] [0] [-1] 1 1 project_to_l1_ball 1
        (1 / 10000)).f_lim := by
    rw [c2w_run]; norm_num
  exact ⟨by norm_num, by norm_num, hgtd, hflt,
    claim_C2_amended op1 [1] [0] [-1] 1 1 project_to_l1_ball 1 (1 / 10000)
      (by norm_num) (by norm_num) hgtd hflt⟩

/-- The result of the concrete line-search call used to refute claim C3. -/
noncomputable def c3res : CurvyLineSearchState :=
  curvy_line_search op1 [1] [0] [1] 1 (2 + 1 / 100000) project_to_l1_ball 1
    (1 / 10000)

theorem c3res_eq : c3res = ⟨1, 1, [-1], [2], [-1], -1, 0, 2,
    2 + 1 / 100000, 1, 0⟩ := by
  have hproj : project_to_l1_ball [(-1:ℝ)] 1 = [-1] := by
    apply project_eq_of_feasible
    rw [l1norm_singleton]
    norm_num
  have hinit : ls_init op1 [1] [0] [1] project_to_l1_ball 1 (1 / 10000)
      (2 + 1 / 100000) 1 = ⟨1, 1, [-1], [2], [-1], -1, 0, 2,
        2 + 1 / 100000, 1, 0⟩ := by
    norm_num [ls_init, ls_candidate, CurvyLineSearchState.mk.injEq,
      op1, vsub, vsmul, dot, obj_val, hproj]
  unfold c3res curvy_line_search
  rw [hinit]
  exact loopIter_stop _ _ _ _ (by norm_num [ls_cond])

/-- Claim C3 counterexample: on the concrete call with `b = [1]`,
`x = [0]`, `g = [1]`, `alpha0 = 1`, `f_max = 2 + 1e-5`, `tau = 1`,
`gamma = 1e-4`, the loop stops at its very first state even though none of
the three claimed stopping reasons holds there: the Armijo condition
`f_val < f_max + gamma*alpha*gtd` is false, `gtd` is negative, and the
iteration cap is not reached. (The code's first acceptance test compares
against `f_max` itself, not against `f_max + gamma*alpha*gtd`.) -/
theorem claim_C3_counterexample :
    c3res = ls_init op1 [1] [0] [1] project_to_l1_ball 1 (1 / 10000)
      (2 + 1 / 100000) 1 ∧
    c3res.gtd < 0 ∧
    c3res.n_iters < 10 ∧
    ¬ (c3res.f_val < (2 + 1 / 100000) + (1 / 10000) * c3res.alpha * c3res.gtd) := by
  have hproj : project_to_l1_ball [(-1:ℝ)] 1 = [-1] := by
    apply project_eq_of_feasible
    rw [l1norm_singleton]
    norm_num
  refine ⟨?_, ?_, ?_, ?_⟩
  · rw [c3res_eq]
    norm_num [ls_init, ls_candidate, CurvyLineSearchState.mk.injEq,
      op1, vsub, vsmul, dot, obj_val, hproj]
  · rw [c3res_eq]
    norm_num
  · rw [c3res_eq]
    norm_num
  · rw [c3res_eq]
    norm_num

/-- Claim C3 amended: the line search always returns a state, namely some
iterate of `next_func` from `init()`; the loop runs exactly while
`n_iters < 10` and `gtd < 0` and `f_val ≥ f_lim`, and the returned state
fails that conjunction (cap reached, or `gtd ≥ 0`, or `f_val < f_lim`) —
where `f_lim` is the plain reference `f_max` for the first candidate and
the Armijo bound `f_max + gamma*alpha*gtd` of the state itself for all
subsequent candidates. -/
theorem claim_C3_amended (A : LinOp) (b x g : List ℝ) (alpha0 f_max : ℝ)
    (proj : List ℝ → ℝ → List ℝ) (tau gamma : ℝ) :
    (∃ k, curvy_line_search A b x g alpha0 f_max proj tau gamma =
        (ls_next A b x g proj tau gamma f_max)^[k]
          (ls_init A b x g proj tau gamma f_max alpha0) ∧
      (∀ j, j < k →
        ((ls_next A b x g proj tau gamma f_max)^[j]
            (ls_init A b x g proj tau gamma f_max alpha0)).n_iters < 10 ∧
        ((ls_next A b x g proj tau gamma f_max)^[j]
            (ls_init A b x g proj tau gamma f_max alpha0)).gtd < 0 ∧
        ((ls_next A b x g proj tau gamma f_max)^[j]
            (ls_init A b x g proj tau gamma f_max alpha0)).f_lim ≤
          ((ls_next A b x g proj tau gamma f_max)^[j]
            (ls_init A b x g proj tau gamma f_max alpha0)).f_val) ∧
      (10 ≤ (curvy_line_search A b x g alpha0 f_max proj tau gamma).n_iters ∨
        0 ≤ (curvy_line_search A b x g alpha0 f_max proj tau gamma).gtd ∨
        (curvy_line_search A b x g alpha0 f_max proj tau gamma).f_val <
          (curvy_line_search A b x g alpha0 f_max proj tau gamma).f_lim)) ∧
    (ls_init A b x g proj tau gamma f_max alpha0).f_lim = f_max ∧
    (∀ s, (ls_next A b x g proj tau gamma f_max s).f_lim =
      f_max + gamma * (ls_next A b x g proj tau gamma f_max s).alpha *
        (ls_next A b x g proj tau gamma f_max s).gtd) := by
  refine ⟨?_, rfl, fun s => rfl⟩
  obtain ⟨k, heq, hcond, hstop⟩ :=
    ls_result_spec A b x g alpha0 f_max proj tau gamma
  refine ⟨k, heq, fun j hj => hcond j hj, ?_⟩
  unfold ls_cond at hstop
  push_neg at hstop
  by_cases h1 : 10 ≤ (curvy_line_search A b x g alpha0 f_max proj tau gamma).n_iters
  · exact Or.inl h1
  by_cases h2 : 0 ≤ (curvy_line_search A b x g alpha0 f_max proj tau gamma).gtd
  · exact Or.inr (Or.inl h2)
  push_neg at h1 h2
  exact Or.inr (Or.inr (hstop h1 h2))

theorem claim_C3_witness :
    10 ≤ (curvy_line_search op1 [2] [0] [1] 1 0 project_to_l1_ball 1
        (1 / 10000)).n_iters ∨
    0 ≤ (curvy_line_search op1 [2] [0] [1] 1 0 project_to_l1_ball 1
        (1 / 10000)).gtd ∨
    (curvy_line_search op1 [2] [0] [1] 1 0 project_to_l1_ball 1
        (1 / 10000)).f_val <
      (curvy_line_search op1 [2] [0] [1] 1 0 project_to_l1_ball 1
        (1 / 10000)).f_lim :=
  (claim_C3_amended op1 [2] [0] [1] 1 0 project_to_l1_ball 1
    (1 / 10000)).1.choose_spec.2.2

/-- Claim C5: the LASSO iterate always satisfies the ball constraint
`l1norm x ≤ tau` (for `tau ≥ 0`): the initial point is projected onto the
ball and every subsequent iterate is a projector output produced inside
the line search; likewise each BPIC iterate is feasible for its current
(state) `tau`. -/
theorem claim_C5 (tau : ℝ) (htau : 0 ≤ tau) :
    (∀ (A : LinOp) (b x0 : List ℝ) (opts : SPGL1Options),
      l1norm (lasso_init A b tau x0 opts).x ≤ tau) ∧
    (∀ (A : LinOp) (b : List ℝ) (opts : SPGL1Options) (s : SPGL1LassoState),
      l1norm (lasso_body A b tau opts s).x ≤ tau) ∧
    (∀ (A : LinOp) (b x0 : List ℝ) (opts : SPGL1Options),
      l1norm (solve_lasso_from A b tau x0 opts).x ≤ tau) ∧
    (∀ (A : LinOp) (b : List ℝ) (sigma : ℝ) (x0 : List ℝ)
        (opts : SPGL1Options),
      0 ≤ (bpic_init A b sigma x0 opts).tau ∧
      l1norm (bpic_init A b sigma x0 opts).x ≤
        (bpic_init A b sigma x0 opts).tau) ∧
    (∀ (A : LinOp) (b : List ℝ) (sigma : ℝ) (opts : SPGL1Options)
        (s : SPGL1BPState), 0 ≤ s.tau →
      l1norm (bpic_body A b sigma opts s).x ≤
        (bpic_body A b sigma opts s).tau) ∧
    (∀ (A : LinOp) (b : List ℝ) (sigma : ℝ) (x0 : List ℝ)
        (opts : SPGL1Options),
      l1norm (solve_bpic_from A b sigma x0 opts).x ≤
        (solve_bpic_from A b sigma x0 opts).tau) :=
  ⟨fun A b x0 opts => lasso_init_feasible htau A b x0 opts,
    fun A b opts s => lasso_body_feasible htau A b opts s,
    fun A b x0 opts => solve_lasso_feasible htau A b x0 opts,
    fun A b sigma x0 opts => bpic_init_feasible A b sigma x0 opts,
    fun A b sigma opts s hs => bpic_body_feasible hs A b sigma opts,
    fun A b sigma x0 opts => (solve_bpic_feasible A b sigma x0 opts).2⟩

theorem claim_C5_witness :
    0 ≤ (1 : ℝ) ∧
    l1norm (lasso_init op1 [2] 1 [0] spgl1_default_options).x ≤ 1 ∧
    l1norm (solve_lasso_from op1 [2] 1 [0] spgl1_default_options).x ≤ 1 :=
  ⟨by norm_num,
    (claim_C5 1 (by norm_num)).1 op1 [2] [0] spgl1_default_options,
    (claim_C5 1 (by norm_num)).2.2.1 op1 [2] [0] spgl1_default_options⟩

/-- Claim C6: in the BPIC body, `tau` is either the clamped Newton update
`max(0, tau + r_norm*(r_norm - sigma)/g_dualnorm)` or unchanged; whenever
the updated `tau` is strictly smaller than the previous one, the state is
re-synchronised by re-projecting the line-search iterate onto the new
smaller ball (so the post-update iterate is feasible for the new `tau`);
when `tau` does not shrink, no re-projection occurs and the line-search
iterate is kept as is. -/
theorem claim_C6 (A : LinOp) (b : List ℝ) (sigma : ℝ)
    (opts : SPGL1Options) (s : SPGL1BPState) :
    ((bpic_body A b sigma opts s).tau =
      max 0 (s.tau + (bpicMet A b sigma opts s).r_norm *
        ((bpicMet A b sigma opts s).r_norm - sigma) /
          (bpicMet A b sigma opts s).g_dnorm) ∨
      (bpic_body A b sigma opts s).tau = s.tau) ∧
    ((bpic_body A b sigma opts s).tau < s.tau →
      (bpic_body A b sigma opts s).x =
        project_to_l1_ball (bpicLS A b opts s).x_new
          (bpic_body A b sigma opts s).tau ∧
      l1norm (bpic_body A b sigma opts s).x ≤
        (bpic_body A b sigma opts s).tau) ∧
    (s.tau ≤ (bpic_body A b sigma opts s).tau →
      (bpic_body A b sigma opts s).x = (bpicLS A b opts s).x_new) := by
  have htau : (bpic_body A b sigma opts s).tau =
      bpicTauNext A b sigma opts s := rfl
  refine ⟨bpic_body_tau_cases A b sigma opts s, ?_, ?_⟩
  · intro hlt
    rw [htau] at hlt
    constructor
    · rw [bpic_body_x_eq, if_pos hlt, htau]
      rfl
    · rw [bpic_body_x_eq, if_pos hlt, htau]
      exact l1norm_project_le (bpicTauNext_nonneg_of_lt hlt) _
  · intro hge
    rw [htau] at hge
    rw [bpic_body_x_eq, if_neg (not_lt.mpr hge)]

theorem claim_C6_witness :
    (bpic_body op1 [1] 0 spgl1_default_options
        ⟨[0], [0], [0], [0], 0, 0, 0, 0, 0, 0, 0, 1, 2, 2, 0, 0⟩).tau =
      max 0 ((0 : ℝ) +
        (bpicMet op1 [1] 0 spgl1_default_options
          ⟨[0], [0], [0], [0], 0, 0, 0, 0, 0, 0, 0, 1, 2, 2, 0, 0⟩).r_norm *
        ((bpicMet op1 [1] 0 spgl1_default_options
          ⟨[0], [0], [0], [0], 0, 0, 0, 0, 0, 0, 0, 1, 2, 2, 0, 0⟩).r_norm - 0) /
        (bpicMet op1 [1] 0 spgl1_default_options
          ⟨[0], [0], [0], [0], 0, 0, 0, 0, 0, 0, 0, 1, 2, 2, 0, 0⟩).g_dnorm) ∨
    (bpic_body op1 [1] 0 spgl1_default_options
        ⟨[0], [0], [0], [0], 0, 0, 0, 0, 0, 0, 0, 1, 2, 2, 0, 0⟩).tau = 0 :=
  (claim_C6 op1 [1] 0 spgl1_default_options
    ⟨[0], [0], [0], [0], 0, 0, 0, 0, 0, 0, 0, 1, 2, 2, 0, 0⟩).1

/-- Default options with an operator-application budget of zero, for the
C4 counterexample. -/
noncomputable def c4opts : SPGL1Options :=
  { spgl1_default_options with max_matvec := 0 }

theorem c4_init :
    lasso_init op1 [1/2] 1 [0] c4opts = ⟨[0], [-(1/2)], [1/2],
      List.replicate 10 (1/8), 1/2, 1/2, 2, 2, 1, 2, 2, 0, 0⟩ := by
  have hx : project_to_l1_ball [(0:ℝ)] 1 = [0] := by
    apply project_eq_of_feasible
    rw [l1norm_singleton]
    norm_num
  have hd : project_to_l1_ball [(1:ℝ)/2] 1 = [1/2] := by
    apply project_eq_of_feasible
    rw [l1norm_singleton, abs_of_pos (by norm_num : (0:ℝ) < 1/2)]
    norm_num
  norm_num [lasso_init, lasso_metrics, SPGL1LassoState.mk.injEq, op1,
    vsub, vsmul, vneg, dot, obj_val, hx, hd, clip, linf_singleton,
    l2norm_singleton, l1norm_singleton, abs_of_pos, abs_of_nonneg,
    max_eq_left, min_eq_left, c4opts, spgl1_default_options]

/-- Claim C4 counterexample: with `max_matvec = 0` the init state of the
LASSO solve on `A = [[1]]`, `b = [1/2]`, `tau = 1`, `x0 = [0]` has already
consumed operator applications (its own counters record 2 and 2), yet the
loop condition still holds, so the outer loop continues past the exhausted
budget: `max_matvec` is never consulted. -/
theorem claim_C4_counterexample :
    c4opts.max_matvec = 0 ∧
    (lasso_init op1 [1/2] 1 [0] c4opts).n_times = 2 ∧
    (lasso_init op1 [1/2] 1 [0] c4opts).n_trans = 2 ∧
    lasso_cond [1/2] c4opts (lasso_init op1 [1/2] 1 [0] c4opts) := by
  refine ⟨rfl, rfl, rfl, ?_⟩
  rw [c4_init]
  unfold lasso_cond
  norm_num [c4opts, spgl1_default_options, l2norm_singleton, abs_of_pos]

/-- Claim C4 amended: the solvers never consult `max_matvec` — both solves
are bitwise identical for every value of the field — and the outer loops
are bounded only by `max_iters` together with the tolerance tests (the
loop conditions require `iterations < max_iters`); the matvec counters are
not accumulated (they are the constant 2, claim C10). -/
theorem claim_C4_amended :
    (∀ (A : LinOp) (b : List ℝ) (tau : ℝ) (x0 : List ℝ)
        (opts : SPGL1Options) (mm : WithTop ℕ),
      solve_lasso_from A b tau x0 { opts with max_matvec := mm } =
        solve_lasso_from A b tau x0 opts) ∧
    (∀ (A : LinOp) (b : List ℝ) (sigma : ℝ) (x0 : List ℝ)
        (opts : SPGL1Options) (mm : WithTop ℕ),
      solve_bpic_from A b sigma x0 { opts with max_matvec := mm } =
        solve_bpic_from A b sigma x0 opts) ∧
    (∀ (b : List ℝ) (opts : SPGL1Options) (s : SPGL1LassoState),
      lasso_cond b opts s → s.iterations < opts.max_iters) ∧
    (∀ (b : List ℝ) (sigma : ℝ) (opts : SPGL1Options) (s : SPGL1BPState),
      bpic_cond b sigma opts s → s.iterations < opts.max_iters) :=
  ⟨fun A b tau x0 opts mm => rfl, fun A b sigma x0 opts mm => rfl,
    fun b opts s h => h.1, fun b sigma opts s h => h.2⟩

theorem claim_C4_witness :
    solve_lasso_from op1 [1/2] 1 [0]
        { spgl1_default_options with max_matvec := 0 } =
      solve_lasso_from op1 [1/2] 1 [0] spgl1_default_options :=
  claim_C4_amended.1 op1 [1/2] 1 [0] spgl1_default_options 0

end Spgl1
